import Mathlib

/-!
Verification development for the pymodaq data persistence and control layer.

The HDF5 persistence subsystem (`data_saving.py` / `saving.py`) is embedded
shallowly: an HDF5 file is a finite, insertion-ordered map from node paths to
nodes; a node is either a group or an array node carrying a data type tag, a
dictionary of typed attributes and a multidimensional array (shape plus
row-major flat data, scalars modelled as rationals).  The saver and loader
classes become pure functions on this file model.  The Qt viewer and the LECO
director are embedded as transition functions on explicit state records, with
Python exceptions modelled by `Except`.
-/

set_option maxHeartbeats 1000000

/-- Scalar values of the stored numpy arrays, modelled as rationals. -/
abbrev Scalar := ℚ

/-- Paths of nodes inside an HDF5 file, e.g. `["RawData", "MyDet", "Data00"]`
for the node `/RawData/MyDet/Data00`. -/
abbrev NodePath := List String

/-- Modelled from the spec: the typed attribute values the persistence layer
writes on nodes ("dictionary-like attribute writes and reads on nodes"):
strings, rationals (for floats), naturals (sizes and indices) and shape
tuples. -/
inductive AttrVal where
  | s (v : String)
  | q (v : Scalar)
  | n (v : Nat)
  | shp (v : List Nat)
  deriving DecidableEq

/-- Modelled from the spec: the data-type tags of `data_saving.py`'s
`DataType` enum, as pinned by the tests: `data = 'Data'`, `axis = 'Axis'`,
`data_enlargeable = 'EnlData'`, `bkg = 'Bkg'`. -/
inductive DataType where
  | data
  | axis
  | data_enlargeable
  | bkg
  deriving DecidableEq

/-- The `value` of a `DataType` enum member: the node-name prefix. -/
def DataType.value : DataType → String
  | .data => "Data"
  | .axis => "Axis"
  | .data_enlargeable => "EnlData"
  | .bkg => "Bkg"

/-- The `name` of a `DataType` enum member. -/
def DataType.tname : DataType → String
  | .data => "data"
  | .axis => "axis"
  | .data_enlargeable => "data_enlargeable"
  | .bkg => "bkg"

/-- A multidimensional array: a shape and the row-major flat list of its
entries. -/
structure NDArr where
  shape : List Nat
  flat : List Scalar
  deriving DecidableEq

/-- Modelled from the spec: a node of the hierarchical file is either a group
or an array node with a data-type tag, attributes and array payload. -/
inductive H5Node where
  | group
  | arr (dtype : DataType) (attrs : List (String × AttrVal)) (a : NDArr)
  deriving DecidableEq

/-- Modelled from the spec: the hierarchical file, an insertion-ordered finite
map from paths to nodes. -/
structure H5File where
  nodes : List (NodePath × H5Node)
  deriving DecidableEq

/-- First-match lookup of a path in an entry list (`h5saver.get_node`). -/
def getNodeL : List (NodePath × H5Node) → NodePath → Option H5Node
  | [], _ => none
  | (p', nd) :: rest, p => if p' = p then some nd else getNodeL rest p

/-- Lookup of a node by path in a file. -/
def getNode (f : H5File) (p : NodePath) : Option H5Node :=
  getNodeL f.nodes p

/-- First-match lookup of an attribute key. -/
def lookupA : List (String × AttrVal) → String → Option AttrVal
  | [], _ => none
  | (k', v) :: rest, k => if k' = k then some v else lookupA rest k

/-- Attribute read on a node (`node.attrs[k]`): the `shape` attribute is kept
synchronized with the stored array's shape by the wrapper, the others live in
the attribute dictionary. -/
def getAttr : H5Node → String → Option AttrVal
  | .group, _ => none
  | .arr _ attrs a, k => if k = "shape" then some (.shp a.shape) else lookupA attrs k

/-- String attribute read with default empty string. -/
def getAttrS (nd : H5Node) (k : String) : String :=
  match getAttr nd k with
  | some (.s v) => v
  | _ => ""

/-- The entries of a file that are direct children of a group path, in
insertion order. -/
def childEntries (l : List (NodePath × H5Node)) (gp : NodePath) :
    List (NodePath × H5Node) :=
  l.filter (fun e => decide (e.1.dropLast = gp) && !e.1.isEmpty)

/-- An array entry inside a group: its path, attributes and array. -/
structure ArrEntry where
  path : NodePath
  attrs : List (String × AttrVal)
  arr : NDArr
  deriving DecidableEq

/-- The array children of a group that carry a given data type, in insertion
order. -/
def typedChildren (l : List (NodePath × H5Node)) (gp : NodePath) (dt : DataType) :
    List ArrEntry :=
  (childEntries l gp).filterMap (fun e =>
    match e.2 with
    | .arr dt' attrs a => if dt' = dt then some ⟨e.1, attrs, a⟩ else none
    | .group => none)

/-- The number of children of a group carrying a given data type: the counter
used to derive the next node name. -/
def countType (f : H5File) (gp : NodePath) (dt : DataType) : Nat :=
  (typedChildren f.nodes gp dt).length

/-- Appending a fresh node to the file. -/
def addNode (f : H5File) (p : NodePath) (nd : H5Node) : H5File :=
  ⟨f.nodes ++ [(p, nd)]⟩

/-- In-place modification of the entry at a path in an entry list. -/
def modL : List (NodePath × H5Node) → NodePath → (H5Node → H5Node) →
    List (NodePath × H5Node)
  | [], _, _ => []
  | (p', nd) :: rest, p, g =>
      (if p' = p then (p', g nd) else (p', nd)) :: modL rest p g

/-- In-place modification of the node(s) at a path. -/
def modifyNode (f : H5File) (p : NodePath) (g : H5Node → H5Node) : H5File :=
  ⟨modL f.nodes p g⟩

/-- Modelled from the spec: `h5saver.get_set_group`, returning the file with
the group present (created when missing). -/
def getSetGroup (f : H5File) (p : NodePath) : H5File :=
  match getNode f p with
  | some _ => f
  | none => addNode f p .group

/-- Two-digit zero-padded decimal rendering of a counter, as produced by the
Python format `f'{ind:02d}'` for counters below 100. -/
def pad2 (i : Nat) : String :=
  if i < 100 then String.mk [Nat.digitChar (i / 10), Nat.digitChar (i % 10)]
  else Nat.repr i

/-- Modelled from the spec: `DataManagement._format_node_name`, the data-type
prefix followed by the two-digit counter ("node-path derivation"). -/
def format_node_name (dt : DataType) (i : Nat) : String :=
  dt.value ++ pad2 i

/-- Reading the stored array of a node (`node.read()`), flattened. -/
def node_read : H5Node → List Scalar
  | .arr _ _ a => a.flat
  | .group => []

/-- A group path is fresh in a file when no entry of the file lies strictly
below it. -/
def Fresh (f : H5File) (gp : NodePath) : Prop :=
  ∀ q nd, q ≠ [] → (gp ++ q, nd) ∉ f.nodes

/-- Modelled from the spec: `SPECIAL_GROUP_NAMES['nav_axes']`. -/
def nav_axes_name : String := "NavAxes"

/-! ### Viewer 0D display state (`viewer0D.py`) -/

/-- Python exceptions relevant to the embedded viewer code. -/
inductive PyErr where
  | attributeError
  deriving DecidableEq

/-- State of `DataDisplayer` in `viewer0D.py`: the `_plot_items` list
(plot items modelled by identifiers) and the accumulated 0D history. -/
structure DisplayerState where
  plot_items : List Nat
  history : List (List Scalar)
  deriving DecidableEq

/-- Embedding of `DataDisplayer.update_display_items`: the clearing loop pops
a plot item and then reads `self.legend_items`, an attribute defined nowhere
on the class (only the `legend` property exists), so the first loop iteration
raises `AttributeError`; with no pre-existing plot items the loop body never
runs and fresh plot items are created, one per data channel. -/
def update_display_items (s : DisplayerState) (data : List Scalar) :
    Except PyErr DisplayerState :=
  if s.plot_items.isEmpty then
    .ok { s with plot_items := List.range data.length }
  else
    .error .attributeError

/-- Embedding of `DataDisplayer.update_data`: when the channel count differs
from the plot-item count it first calls `update_display_items`, then appends
the new values to the history and updates each plot item. -/
def update_data (s : DisplayerState) (data : List Scalar) :
    Except PyErr DisplayerState :=
  match (if data.length ≠ s.plot_items.length
         then update_display_items s data
         else .ok s) with
  | .error e => .error e
  | .ok s' => .ok { s' with history := s'.history ++ [data] }

/-! ### LECO director (`daq_move_LECODirector.py`) -/

/-- Outcome of the remote `controller.set_remote_name` call inside
`ini_stage`: it either succeeds or times out. -/
inductive RemoteNameOutcome where
  | ok
  | timeout
  deriving DecidableEq

/-- The status record returned by `ini_stage`. -/
structure IniStatus where
  info : String
  initialized : Bool
  deriving DecidableEq

/-- Embedding of `DAQ_Move_LECODirector.ini_stage`: the `set_remote_name`
call is wrapped in `try/except TimeoutError` whose handler only prints, and
the status fields are set unconditionally afterwards. -/
def ini_stage (o : RemoteNameOutcome) : IniStatus :=
  let st : IniStatus := { info := "", initialized := false }
  let st :=
    match o with
    | .ok => st
    | .timeout => st
  { st with info := "LECODirector", initialized := true }

/-- Commands forwarded to the remote actuator controller. -/
inductive MoveCmd where
  | abs (p : Scalar)
  | rel (p : Scalar)
  deriving DecidableEq

/-- State of the move module: current and target values and the list of
commands sent to the controller, in order. -/
structure MoveState where
  current_value : Scalar
  target_value : Scalar
  sent : List MoveCmd
  deriving DecidableEq

/-- Embedding of `DAQ_Move_LECODirector.move_abs`, parametrized by the base
class helpers `check_bound` and `set_position_with_scaling`. -/
def move_abs (check_bound scale_abs : Scalar → Scalar)
    (s : MoveState) (p : Scalar) : MoveState :=
  let pos := check_bound p
  let pos := scale_abs pos
  { s with sent := s.sent ++ [.abs pos], target_value := pos }

/-- Embedding of `DAQ_Move_LECODirector.move_rel`, parametrized by the base
class helpers `check_bound` and `set_position_relative_with_scaling`. -/
def move_rel (check_bound scale_rel : Scalar → Scalar)
    (s : MoveState) (p : Scalar) : MoveState :=
  let pos := check_bound (s.current_value + p) - s.current_value
  let tv := pos + s.current_value
  let pos := scale_rel pos
  { s with target_value := tv, sent := s.sent ++ [.rel pos] }

/-! ### In-memory data objects (`pymodaq.utils.data`) -/

/-- Modelled from the spec: an `Axis` carries a label, units, its 1D data and
the index of the data dimension it describes. -/
structure Axis where
  label : String
  units : String
  data : List Scalar
  index : Nat
  deriving DecidableEq

/-- The `offset` of an axis, the first data point (the linear representation
pymodaq derives from the data). -/
def Axis.offset (a : Axis) : Scalar := a.data.headD 0

/-- The `scaling` of an axis, the first difference of the data (1 for axes
with fewer than two points). -/
def Axis.scaling (a : Axis) : Scalar :=
  match a.data with
  | x :: y :: _ => y - x
  | _ => 1

/-- Modelled from the spec: a `DataWithAxes`, a named list of arrays sharing
shape and axes, with one label per array. -/
structure DataWithAxes where
  name : String
  data : List NDArr
  labels : List String
  axes : List Axis
  deriving DecidableEq

/-- The shape of a `DataWithAxes`: the shape of its first array. -/
def DataWithAxes.shape (d : DataWithAxes) : List Nat :=
  (d.data.headD ⟨[], []⟩).shape

/-- The labels padded with empty strings up to the number of arrays, as
pymodaq completes missing labels. -/
def labelsFilled (d : DataWithAxes) : List String :=
  d.labels ++ List.replicate (d.data.length - d.labels.length) ""

/-- The dimensionality string of a `DataWithAxes` (`Data0D`, `Data1D`, ...),
derived from its shape as in pymodaq (size-one data is 0D). -/
def dwa_dim (d : DataWithAxes) : String :=
  if d.shape.prod = 1 then "Data0D"
  else match d.shape.length with
    | 1 => "Data1D"
    | 2 => "Data2D"
    | _ => "DataND"

/-- Modelled from the spec: a `DataToExport`, a named collection of
`DataWithAxes`. -/
structure DataToExport where
  name : String
  data : List DataWithAxes
  deriving DecidableEq

/-- The distinct dimensionality strings present in a `DataToExport`, in first
occurrence order (`get_dim_presents`). -/
def dims_of (dte : DataToExport) : List String :=
  dte.data.foldl (fun acc d => if dwa_dim d ∈ acc then acc else acc ++ [dwa_dim d]) []

/-- The `DataWithAxes` of a given dimensionality, in order
(`get_data_from_dim`). -/
def data_from_dim (dte : DataToExport) (dim : String) : List DataWithAxes :=
  dte.data.filter (fun d => dwa_dim d = dim)

/-- The name of the n-th channel group, `f'CH{ind:02d}'`. -/
def chName (j : Nat) : String := "CH" ++ pad2 j

/-! ### Saver and loader functions (`data_saving.py`) -/

/-- An array node as created by a saver: the `data_type` attribute carries the
saver's data type name. -/
def mkArrNode (dt : DataType) (attrs : List (String × AttrVal)) (a : NDArr) : H5Node :=
  .arr dt (attrs ++ [("data_type", .s dt.tname)]) a

/-- The attributes written on an axis node: label, units, offset, scaling and
index of the axis. -/
def axis_attrs (a : Axis) : List (String × AttrVal) :=
  [("label", .s a.label), ("units", .s a.units), ("offset", .q a.offset),
   ("scaling", .q a.scaling), ("index", .n a.index)]

/-- Modelled from the spec: `AxisSaverLoader.add_axis`, creating under the
group a new axis-typed node named by the axis counter, carrying the axis
metadata attributes and storing the axis data. -/
def add_axis (f : H5File) (gp : NodePath) (a : Axis) : H5File :=
  addNode f (gp ++ [format_node_name .axis (countType f gp .axis)])
    (mkArrNode .axis (axis_attrs a) ⟨[a.data.length], a.data⟩)

/-- Modelled from the spec: `AxisSaverLoader.load_axis`, rebuilding an `Axis`
from an axis-typed node's attributes and stored array. -/
def load_axis : H5Node → Option Axis
  | .arr .axis attrs a =>
      some ⟨(match lookupA attrs "label" with | some (.s v) => v | _ => ""),
            (match lookupA attrs "units" with | some (.s v) => v | _ => ""),
            a.flat,
            (match lookupA attrs "index" with | some (.n v) => v | _ => 0)⟩
  | _ => none

/-- Saving a list of axes in order. -/
def add_axes (f : H5File) (gp : NodePath) : List Axis → H5File
  | [] => f
  | a :: rest => add_axes (add_axis f gp a) gp rest

/-- Modelled from the spec: `AxisSaverLoader.get_axes`, loading all axis-typed
children of a group (of the node's parent group when given a node), in file
order. -/
def get_axes (f : H5File) (p : NodePath) : List Axis :=
  let gp := match getNode f p with
    | some (.arr _ _ _) => p.dropLast
    | _ => p
  (typedChildren f.nodes gp .axis).filterMap (fun e => load_axis (.arr .axis e.attrs e.arr))

/-- Sequentially creating one array node per `(attrs, array)` pair, each named
by the current counter of the data type in the group. -/
def add_typed_arrays (f : H5File) (gp : NodePath) (dt : DataType) :
    List (List (String × AttrVal) × NDArr) → H5File
  | [] => f
  | (ats, a) :: rest =>
      add_typed_arrays
        (addNode f (gp ++ [format_node_name dt (countType f gp dt)]) (mkArrNode dt ats a))
        gp dt rest

/-- The attributes written on a data node: the `DataWithAxes` name and the
channel label. -/
def data_attrs (name label : String) : List (String × AttrVal) :=
  [("name", .s name), ("label", .s label)]

/-- The `(attrs, array)` pairs of a `DataWithAxes`, one per array with its
label. -/
def dwa_pairs (d : DataWithAxes) : List (List (String × AttrVal) × NDArr) :=
  (d.data.zip (labelsFilled d)).map (fun pa => (data_attrs d.name pa.2, pa.1))

/-- Modelled from the spec: `DataSaverLoader.add_data`, saving each array of
the data as a data-typed node and then each axis as an axis node, all under
the given group. -/
def DataSaverLoader.add_data (f : H5File) (gp : NodePath) (d : DataWithAxes) : H5File :=
  add_axes (add_typed_arrays f gp .data (dwa_pairs d)) gp d.axes

/-- Elementwise subtraction of two arrays of the same shape. -/
def sub_arr (a b : NDArr) : NDArr :=
  ⟨a.shape, List.zipWith (· - ·) a.flat b.flat⟩

/-- Pairing each data channel with the background channel of the same rank
when one exists, subtracting it elementwise. -/
def pair_bkg : List ArrEntry → List ArrEntry → List NDArr
  | [], _ => []
  | e :: rest, [] => e.arr :: pair_bkg rest []
  | e :: rest, b :: brest => sub_arr e.arr b.arr :: pair_bkg rest brest

/-- Modelled from the spec: `DataLoader.load_data` (also
`DataSaverLoader.load_data`): from a data node or its group, collect the
data-typed channel nodes of the group in order (enlargeable when the pointed
node is), subtract the background node of the same rank when one exists, and
rebuild the `DataWithAxes` with the group's axes. -/
def load_data (f : H5File) (p : NodePath) : Option DataWithAxes :=
  let gp := match getNode f p with
    | some (.arr _ _ _) => p.dropLast
    | _ => p
  let dt := match getNode f p with
    | some (.arr .data_enlargeable _ _) => DataType.data_enlargeable
    | _ => DataType.data
  match typedChildren f.nodes gp dt with
  | [] => none
  | des =>
      let bkgs := typedChildren f.nodes gp .bkg
      some { name := (match lookupA (des.headD ⟨[], [], ⟨[], []⟩⟩).attrs "name" with
                      | some (.s v) => v | _ => ""),
             data := pair_bkg des bkgs,
             labels := des.map (fun e =>
               match lookupA e.attrs "label" with | some (.s v) => v | _ => ""),
             axes := (typedChildren f.nodes gp .axis).filterMap
               (fun e => load_axis (.arr .axis e.attrs e.arr)) }

/-- Appending a slice along a new first dimension of an enlargeable array
(`EArray.append`): the first shape component grows by one and the flat data
is appended. -/
def stack (es : NDArr) (x : NDArr) : NDArr :=
  ⟨(es.shape.headD 0 + 1) :: es.shape.tail, es.flat ++ x.flat⟩

/-- Appending a slice to the array of a node. -/
def stackNode (x : NDArr) : H5Node → H5Node
  | .arr dt attrs a => .arr dt attrs (stack a x)
  | .group => .group

/-- Modelled from the spec: one enlargeable channel of
`DataEnlargeableSaver.add_data`: the node for rank `i` is created with a first
dimension of zero and appended to on creation and on every later call
("shape growth"). -/
def enl_add_one (f : H5File) (gp : NodePath) (i : Nat)
    (ats : List (String × AttrVal)) (x : NDArr) : H5File :=
  let p := gp ++ [format_node_name .data_enlargeable i]
  match getNode f p with
  | some _ => modifyNode f p (stackNode x)
  | none => addNode f p (mkArrNode .data_enlargeable ats (stack ⟨0 :: x.shape, []⟩ x))

/-- Sequential enlargeable append of a list of `(attrs, array)` pairs starting
at a given rank. -/
def enl_add_arrays (f : H5File) (gp : NodePath) :
    Nat → List (List (String × AttrVal) × NDArr) → H5File
  | _, [] => f
  | i, (ats, a) :: rest => enl_add_arrays (enl_add_one f gp i ats a) gp (i + 1) rest

/-- Modelled from the spec: `DataEnlargeableSaver.add_data`, appending each
array of the data to its enlargeable node (created on the first call, when the
axes are also saved). -/
def DataEnlargeableSaver.add_data (f : H5File) (gp : NodePath) (d : DataWithAxes) : H5File :=
  let wasFresh := (getNode f (gp ++ [format_node_name .data_enlargeable 0])).isNone
  let f1 := enl_add_arrays f gp 0 (dwa_pairs d)
  if wasFresh then add_axes f1 gp d.axes else f1

/-- Row-major linear index of a multi-index inside a shape. -/
def lin_index : List Nat → List Nat → Nat
  | _, [] => 0
  | [], _ :: _ => 0
  | _ :: ss, i :: is => i * ss.prod + lin_index ss is

/-- The all-zero array of a given shape. -/
def zeros_arr (sh : List Nat) : NDArr :=
  ⟨sh, List.replicate sh.prod 0⟩

/-- Overwriting the flat data of an array from a given offset. -/
def write_at (a : NDArr) (off : Nat) (blk : List Scalar) : NDArr :=
  ⟨a.shape, a.flat.take off ++ blk ++ a.flat.drop (off + blk.length)⟩

/-- Reading back the block stored at a multi-index of the extended part of an
array whose shape is an extended shape of length `next` followed by the data
shape (`node[indexes]`). -/
def read_block (a : NDArr) (next : Nat) (I : List Nat) : List Scalar :=
  let s := a.shape.drop next
  (a.flat.drop (lin_index (a.shape.take next) I * s.prod)).take s.prod

/-- Reading back the block at a multi-index of a node's array
(`node[indexes]`). -/
def node_read_block (nd : H5Node) (next : Nat) (I : List Nat) : List Scalar :=
  match nd with
  | .arr _ _ a => read_block a next I
  | .group => []

/-- Modelled from the spec: `DataExtendedSaver`, holding the extended shape
given at construction. -/
structure DataExtendedSaver where
  extended_shape : List Nat
  deriving DecidableEq

/-- Modelled from the spec: `DataExtendedSaver.add_data` ("indexed writes"):
each array of the data gets a data-typed node of shape `extended_shape ++
array shape`, zero initialized with the array written at the multi-index, and
the axes are saved alongside. -/
def DataExtendedSaver.add_data (sv : DataExtendedSaver) (f : H5File) (gp : NodePath)
    (d : DataWithAxes) (I : List Nat) : H5File :=
  add_axes
    (add_typed_arrays f gp .data
      ((dwa_pairs d).map (fun pa =>
        (pa.1, write_at (zeros_arr (sv.extended_shape ++ pa.2.shape))
          (lin_index sv.extended_shape I * pa.2.shape.prod) pa.2.flat))))
    gp d.axes

/-- Modelled from the spec: `DataToExportSaver.add_data`: for each
dimensionality present a dimension group, inside it one channel group `CHxx`
per `DataWithAxes` of that dimensionality, each saved with
`DataSaverLoader.add_data`. -/
def DataToExportSaver.add_data (f : H5File) (det : NodePath) (dte : DataToExport) : H5File :=
  (dims_of dte).foldl (fun f dim =>
    let dimGp := det ++ [dim]
    let f := getSetGroup f dimGp
    (data_from_dim dte dim).enum.foldl (fun f jd =>
      let chGp := dimGp ++ [chName jd.1]
      DataSaverLoader.add_data (getSetGroup f chGp) chGp jd.2) f) f

/-- Modelled from the spec: `DataToExportSaver.add_bkg`, saving the arrays of
each `DataWithAxes` as background-typed nodes in the same dimension and
channel groups. -/
def DataToExportSaver.add_bkg (f : H5File) (det : NodePath) (dte : DataToExport) : H5File :=
  (dims_of dte).foldl (fun f dim =>
    let dimGp := det ++ [dim]
    let f := getSetGroup f dimGp
    (data_from_dim dte dim).enum.foldl (fun f jd =>
      let chGp := dimGp ++ [chName jd.1]
      add_typed_arrays (getSetGroup f chGp) chGp .bkg (dwa_pairs jd.2)) f) f

/-- The attributes of the navigation axis node created by the enlargeable
`DataToExport` savers. -/
def nav_axis_attrs : List (String × AttrVal) :=
  [("label", .s "nav axis"), ("units", .s ""), ("index", .n 0)]

/-- Modelled from the spec: appending the axis value to the enlargeable
navigation axis node `Axis00` of the `NavAxes` group (created on first use)
("navigation axes"). -/
def add_nav_axis_value (f : H5File) (navGp : NodePath) (v : Scalar) : H5File :=
  let p := navGp ++ [format_node_name .axis 0]
  match getNode f p with
  | some _ => modifyNode f p (stackNode ⟨[], [v]⟩)
  | none => addNode f p (mkArrNode .axis nav_axis_attrs (stack ⟨[0], []⟩ ⟨[], [v]⟩))

/-- Modelled from the spec: `DataToExportEnlargeableSaver.add_data`: the axis
value is appended to the navigation axis inside the `NavAxes` group of the
detector group, then every `DataWithAxes` is appended to its enlargeable
channel nodes, grouped by dimensionality and channel as for fixed data. -/
def DataToExportEnlargeableSaver.add_data (f : H5File) (det : NodePath)
    (dte : DataToExport) (axis_value : Scalar) : H5File :=
  let navGp := det ++ [nav_axes_name]
  let f := getSetGroup f navGp
  let f := add_nav_axis_value f navGp axis_value
  (dims_of dte).foldl (fun f dim =>
    let dimGp := det ++ [dim]
    let f := getSetGroup f dimGp
    (data_from_dim dte dim).enum.foldl (fun f jd =>
      let chGp := dimGp ++ [chName jd.1]
      DataEnlargeableSaver.add_data (getSetGroup f chGp) chGp jd.2) f) f

/-- Modelled from the spec: `DataToExportTimedSaver.add_data`, the enlargeable
saver with the acquisition timestamp as navigation axis value. -/
def DataToExportTimedSaver.add_data (f : H5File) (det : NodePath)
    (dte : DataToExport) (timestamp : Scalar) : H5File :=
  DataToExportEnlargeableSaver.add_data f det dte timestamp

/-- Walk from a node towards the root along the reversed path, returning the
first `NavAxes` sibling group found. -/
def nav_walk (f : H5File) : List String → Option NodePath
  | [] => none
  | _ :: revRest =>
      let par := revRest.reverse
      if (getNode f (par ++ [nav_axes_name])).isSome then some (par ++ [nav_axes_name])
      else nav_walk f revRest

/-- Modelled from the spec: `DataLoader.get_nav_group`, walking up the
ancestors of a node and returning the first `NavAxes` child group found. -/
def get_nav_group (f : H5File) (p : NodePath) : Option NodePath :=
  nav_walk f p.reverse

/-! ### Specification helpers

Closed forms for the entry lists the savers append, used to state and prove
the claims. -/

/-- A node data type counts as data-typed when its `data_type` name contains
the substring `data` (the test's `'data' in node.attrs['data_type']`):
this holds for `data` and `data_enlargeable` and fails for `axis` and
`bkg`. -/
def data_typed : DataType → Bool
  | .data => true
  | .data_enlargeable => true
  | .axis => false
  | .bkg => false

/-- Iterated `DataEnlargeableSaver.add_data` of the same data into the same
group. -/
def enl_iter (gp : NodePath) (d : DataWithAxes) (f0 : H5File) : Nat → H5File
  | 0 => f0
  | n + 1 => DataEnlargeableSaver.add_data (enl_iter gp d f0 n) gp d

/-- A concrete one-channel `DataToExport` used to instantiate the iterated
enlargeable-saver theorems: one 1D `DataWithAxes` with two arrays and one
axis. -/
def sample_dte : DataToExport :=
  ⟨"big", [⟨"mydata", [⟨[2], [1, 2]⟩, ⟨[2], [3, 4]⟩], ["l1", "l2"],
    [⟨"ax", "u", [5, 6], 0⟩]⟩]⟩

/-- The fresh detector file `/RawData/MyDet`. -/
def base_det_file : H5File :=
  ⟨[(["RawData"], .group), (["RawData", "MyDet"], .group)]⟩

/-- Iterated `DataToExportEnlargeableSaver.add_data` of `sample_dte` with a
fixed axis value. -/
def iterEnl (v : Scalar) : Nat → H5File
  | 0 => base_det_file
  | n + 1 => DataToExportEnlargeableSaver.add_data (iterEnl v n) ["RawData", "MyDet"]
      sample_dte v

/-- Iterated `DataToExportTimedSaver.add_data` of `sample_dte`, the n-th call
carrying timestamp n. -/
def iterTimed : Nat → H5File
  | 0 => base_det_file
  | n + 1 => DataToExportTimedSaver.add_data (iterTimed n) ["RawData", "MyDet"]
      sample_dte (n : Scalar)

/-- The file reached after m enlargeable appends of `sample_dte` into
`/RawData/MyDet`, parametrized by the accumulated flat contents. -/
def expectedEnl (m : Nat) (flnav fl0 fl1 : List Scalar) : H5File := ⟨[
  (["RawData"], .group),
  (["RawData", "MyDet"], .group),
  (["RawData", "MyDet", "NavAxes"], .group),
  (["RawData", "MyDet", "NavAxes", "Axis00"], mkArrNode .axis nav_axis_attrs ⟨[m], flnav⟩),
  (["RawData", "MyDet", "Data1D"], .group),
  (["RawData", "MyDet", "Data1D", "CH00"], .group),
  (["RawData", "MyDet", "Data1D", "CH00", "EnlData00"],
    mkArrNode .data_enlargeable (data_attrs "mydata" "l1") ⟨[m, 2], fl0⟩),
  (["RawData", "MyDet", "Data1D", "CH00", "EnlData01"],
    mkArrNode .data_enlargeable (data_attrs "mydata" "l2") ⟨[m, 2], fl1⟩),
  (["RawData", "MyDet", "Data1D", "CH00", "Axis00"],
    mkArrNode .axis (axis_attrs ⟨"ax", "u", [5, 6], 0⟩) ⟨[2], [5, 6]⟩)]⟩

/-- The entries created by `add_typed_arrays` starting from counter `c`. -/
def mkArrEntries (gp : NodePath) (dt : DataType) :
    Nat → List (List (String × AttrVal) × NDArr) → List (NodePath × H5Node)
  | _, [] => []
  | c, (ats, a) :: rest =>
      (gp ++ [format_node_name dt c], mkArrNode dt ats a) :: mkArrEntries gp dt (c + 1) rest

/-- The array entries of a group seen through `typedChildren` after
`add_typed_arrays` starting from counter `c`. -/
def arrSpec (gp : NodePath) (dt : DataType) :
    Nat → List (List (String × AttrVal) × NDArr) → List ArrEntry
  | _, [] => []
  | c, (ats, a) :: rest =>
      ⟨gp ++ [format_node_name dt c], ats ++ [("data_type", .s dt.tname)], a⟩ ::
        arrSpec gp dt (c + 1) rest

/-- The entries created by `add_axes` starting from counter `c`. -/
def mkAxisEntries (gp : NodePath) :
    Nat → List Axis → List (NodePath × H5Node)
  | _, [] => []
  | c, a :: rest =>
      (gp ++ [format_node_name .axis c],
        mkArrNode .axis (axis_attrs a) ⟨[a.data.length], a.data⟩) :: mkAxisEntries gp (c + 1) rest

/-! ### Base lemmas on the file model -/

theorem getNodeL_nil (p : NodePath) : getNodeL [] p = none := rfl

theorem getNodeL_cons (p' : NodePath) (nd : H5Node) (rest : List (NodePath × H5Node))
    (p : NodePath) :
    getNodeL ((p', nd) :: rest) p = if p' = p then some nd else getNodeL rest p := rfl

theorem getNodeL_append (l₁ l₂ : List (NodePath × H5Node)) (p : NodePath) :
    getNodeL (l₁ ++ l₂) p =
      match getNodeL l₁ p with
      | some nd => some nd
      | none => getNodeL l₂ p := by
  induction l₁ with
  | nil => simp [getNodeL]
  | cons e l ih =>
      obtain ⟨p', nd⟩ := e
      by_cases h : p' = p <;> simp [getNodeL, h, ih]

theorem getNodeL_eq_none (l : List (NodePath × H5Node)) (p : NodePath)
    (h : ∀ nd, (p, nd) ∉ l) : getNodeL l p = none := by
  induction l with
  | nil => rfl
  | cons e rest ih =>
      obtain ⟨p', nd⟩ := e
      have hne : p' ≠ p := by
        intro hp
        exact h nd (by simp [hp])
      rw [getNodeL_cons, if_neg hne]
      exact ih (fun nd' hmem => h nd' (List.mem_cons_of_mem _ hmem))

theorem getNodeL_modL_self (l : List (NodePath × H5Node)) (p : NodePath)
    (g : H5Node → H5Node) :
    getNodeL (modL l p g) p = (getNodeL l p).map g := by
  induction l with
  | nil => rfl
  | cons e rest ih =>
      obtain ⟨p', nd⟩ := e
      by_cases h : p' = p
      · subst h
        rw [modL, if_pos rfl, getNodeL_cons, getNodeL_cons, if_pos rfl, if_pos rfl]
        rfl
      · rw [modL, if_neg h, getNodeL_cons, getNodeL_cons, if_neg h, if_neg h]
        exact ih

theorem getNodeL_modL_ne (l : List (NodePath × H5Node)) (p q : NodePath)
    (g : H5Node → H5Node) (h : p ≠ q) :
    getNodeL (modL l p g) q = getNodeL l q := by
  induction l with
  | nil => rfl
  | cons e rest ih =>
      obtain ⟨p', nd⟩ := e
      by_cases hp : p' = p
      · subst hp
        have hq : p' ≠ q := h
        rw [modL, if_pos rfl, getNodeL_cons, getNodeL_cons, if_neg hq, if_neg hq]
        exact ih
      · rw [modL, if_neg hp, getNodeL_cons, getNodeL_cons]
        by_cases hq : p' = q
        · rw [if_pos hq, if_pos hq]
        · rw [if_neg hq, if_neg hq]
          exact ih

theorem map_fst_modL (l : List (NodePath × H5Node)) (p : NodePath) (g : H5Node → H5Node) :
    (modL l p g).map Prod.fst = l.map Prod.fst := by
  induction l with
  | nil => rfl
  | cons e rest ih =>
      obtain ⟨p', nd⟩ := e
      by_cases h : p' = p
      · rw [modL, if_pos h, List.map_cons, List.map_cons, ih]
      · rw [modL, if_neg h, List.map_cons, List.map_cons, ih]

theorem getNodeL_eq_none_of_not_mem_fst (l : List (NodePath × H5Node)) (p : NodePath)
    (h : p ∉ l.map Prod.fst) : getNodeL l p = none := by
  refine getNodeL_eq_none l p (fun nd hmem => h ?_)
  exact List.mem_map_of_mem Prod.fst hmem

theorem childEntries_append (l₁ l₂ : List (NodePath × H5Node)) (gp : NodePath) :
    childEntries (l₁ ++ l₂) gp = childEntries l₁ gp ++ childEntries l₂ gp := by
  unfold childEntries
  rw [List.filter_append]

theorem typedChildren_append (l₁ l₂ : List (NodePath × H5Node)) (gp : NodePath)
    (dt : DataType) :
    typedChildren (l₁ ++ l₂) gp dt = typedChildren l₁ gp dt ++ typedChildren l₂ gp dt := by
  unfold typedChildren
  rw [childEntries_append, List.filterMap_append]

theorem childEntries_eq_nil_of_fresh (f : H5File) (gp : NodePath) (h : Fresh f gp) :
    childEntries f.nodes gp = [] := by
  rw [childEntries, List.filter_eq_nil_iff]
  rintro ⟨p, nd⟩ hmem hpred
  simp only [Bool.and_eq_true, decide_eq_true_eq, Bool.not_eq_true'] at hpred
  obtain ⟨hdrop, hne⟩ := hpred
  have hpne : p ≠ [] := by
    intro hp
    rw [hp] at hne
    simp at hne
  have hsplit : p.dropLast ++ [p.getLast hpne] = p := List.dropLast_append_getLast hpne
  rw [hdrop] at hsplit
  refine h [p.getLast hpne] nd (by simp) ?_
  rw [hsplit]
  exact hmem

theorem typedChildren_eq_nil_of_fresh (f : H5File) (gp : NodePath) (dt : DataType)
    (h : Fresh f gp) : typedChildren f.nodes gp dt = [] := by
  rw [typedChildren, childEntries_eq_nil_of_fresh f gp h]
  rfl

/-! ### Node-name lemmas -/

theorem string_data_append (s t : String) : (s ++ t).data = s.data ++ t.data := rfl

theorem pad2_data (i : Nat) (h : i < 100) :
    (pad2 i).data = [Nat.digitChar (i / 10), Nat.digitChar (i % 10)] := by
  rw [pad2, if_pos h]

theorem digitChar_inj_lt : ∀ i < 10, ∀ j < 10, Nat.digitChar i = Nat.digitChar j → i = j := by
  decide

theorem pad2_data_inj (i j : Nat) (hi : i < 100) (hj : j < 100)
    (h : (pad2 i).data = (pad2 j).data) : i = j := by
  rw [pad2_data i hi, pad2_data j hj] at h
  simp only [List.cons.injEq, and_true] at h
  have h1 : i / 10 = j / 10 :=
    digitChar_inj_lt _ (by omega) _ (by omega) h.1
  have h2 : i % 10 = j % 10 :=
    digitChar_inj_lt _ (by omega) _ (by omega) h.2
  omega

theorem format_node_name_inj (dt : DataType) (i j : Nat) (hi : i < 100) (hj : j < 100)
    (h : format_node_name dt i = format_node_name dt j) : i = j := by
  have hd := congrArg String.data h
  rw [format_node_name, format_node_name, string_data_append, string_data_append] at hd
  exact pad2_data_inj i j hi hj (List.append_cancel_left hd)

theorem format_node_name_ne (dt dt' : DataType) (i j : Nat) (h : dt ≠ dt') :
    format_node_name dt i ≠ format_node_name dt' j := by
  intro heq
  have hd := congrArg (fun s => s.data.head?) heq
  cases dt <;> cases dt' <;> first
    | exact (h rfl).elim
    | exact absurd (Option.some.inj hd) (by decide)

/-! ### Counter and normal-form lemmas for the savers -/

theorem typedChildren_single_child (gp : NodePath) (x : String) (dt dt' : DataType)
    (ats : List (String × AttrVal)) (a : NDArr) :
    typedChildren [(gp ++ [x], mkArrNode dt ats a)] gp dt' =
      if dt = dt' then [⟨gp ++ [x], ats ++ [("data_type", .s dt.tname)], a⟩] else [] := by
  have hchild : childEntries [(gp ++ [x], mkArrNode dt ats a)] gp =
      [(gp ++ [x], mkArrNode dt ats a)] := by
    rw [childEntries, List.filter_cons]
    simp [List.dropLast_concat]
  rw [typedChildren, hchild]
  by_cases h : dt = dt' <;> simp [mkArrNode, List.filterMap, h]

theorem typedChildren_single_group (gp p : NodePath) :
    typedChildren [(p, H5Node.group)] gp dt = [] := by
  rw [typedChildren]
  rcases hc : childEntries [(p, H5Node.group)] gp with _ | ⟨e, rest⟩
  · rfl
  · have hmem : e ∈ childEntries [(p, H5Node.group)] gp := by rw [hc]; exact List.mem_cons_self e rest
    have he : e = (p, H5Node.group) := by
      have := List.mem_of_mem_filter hmem
      simpa using this
    have hrest : rest = [] := by
      have hlen := congrArg List.length hc
      have : (childEntries [(p, H5Node.group)] gp).length ≤ 1 := by
        rw [childEntries]
        simpa using List.length_filter_le _ _
      rw [hc] at this
      simp at this
      simpa using this
    rw [he, hrest]
    rfl

theorem countType_addNode_child (f : H5File) (gp : NodePath) (x : String)
    (dt dt' : DataType) (ats : List (String × AttrVal)) (a : NDArr) :
    countType (addNode f (gp ++ [x]) (mkArrNode dt ats a)) gp dt' =
      countType f gp dt' + if dt = dt' then 1 else 0 := by
  rw [countType, addNode, typedChildren_append, List.length_append,
    typedChildren_single_child, countType]
  by_cases h : dt = dt' <;> simp [h]

theorem countType_addNode_group (f : H5File) (gp p : NodePath) (dt : DataType) :
    countType (addNode f p .group) gp dt = countType f gp dt := by
  rw [countType, addNode, typedChildren_append, List.length_append,
    typedChildren_single_group, countType]
  rfl

theorem add_typed_arrays_nodes (gp : NodePath) (dt : DataType)
    (ps : List (List (String × AttrVal) × NDArr)) :
    ∀ f : H5File, (add_typed_arrays f gp dt ps).nodes =
      f.nodes ++ mkArrEntries gp dt (countType f gp dt) ps := by
  induction ps with
  | nil => intro f; simp [add_typed_arrays, mkArrEntries]
  | cons pa rest ih =>
      intro f
      obtain ⟨ats, a⟩ := pa
      rw [add_typed_arrays, ih, mkArrEntries]
      rw [countType_addNode_child, if_pos rfl, addNode]
      simp

theorem add_axes_nodes (gp : NodePath) (axes : List Axis) :
    ∀ f : H5File, (add_axes f gp axes).nodes =
      f.nodes ++ mkAxisEntries gp (countType f gp .axis) axes := by
  induction axes with
  | nil => intro f; simp [add_axes, mkAxisEntries]
  | cons a rest ih =>
      intro f
      rw [add_axes, ih, mkAxisEntries, add_axis]
      rw [countType_addNode_child, if_pos rfl, addNode]
      simp

theorem mkAxisEntries_eq (gp : NodePath) (axes : List Axis) :
    ∀ c, mkAxisEntries gp c axes =
      mkArrEntries gp .axis c
        (axes.map (fun a => (axis_attrs a, ⟨[a.data.length], a.data⟩))) := by
  induction axes with
  | nil => intro c; rfl
  | cons a rest ih => intro c; rw [List.map_cons, mkAxisEntries, mkArrEntries, ih]

theorem typedChildren_cons (e : NodePath × H5Node) (l : List (NodePath × H5Node))
    (gp : NodePath) (dt : DataType) :
    typedChildren (e :: l) gp dt = typedChildren [e] gp dt ++ typedChildren l gp dt := by
  have : e :: l = [e] ++ l := rfl
  rw [this, typedChildren_append]

theorem typedChildren_mkArrEntries_self (gp : NodePath) (dt : DataType)
    (ps : List (List (String × AttrVal) × NDArr)) :
    ∀ c, typedChildren (mkArrEntries gp dt c ps) gp dt = arrSpec gp dt c ps := by
  induction ps with
  | nil => intro c; rfl
  | cons pa rest ih =>
      intro c
      obtain ⟨ats, a⟩ := pa
      rw [mkArrEntries, arrSpec, typedChildren_cons, typedChildren_single_child,
        if_pos rfl, ih]
      rfl

theorem typedChildren_mkArrEntries_ne (gp : NodePath) (dt dt' : DataType)
    (ps : List (List (String × AttrVal) × NDArr)) (h : dt ≠ dt') :
    ∀ c, typedChildren (mkArrEntries gp dt c ps) gp dt' = [] := by
  induction ps with
  | nil => intro c; rfl
  | cons pa rest ih =>
      intro c
      obtain ⟨ats, a⟩ := pa
      rw [mkArrEntries, typedChildren_cons, typedChildren_single_child, if_neg h, ih]
      rfl

theorem load_axis_mk (a : Axis) :
    load_axis (.arr .axis (axis_attrs a ++ [("data_type", .s DataType.axis.tname)])
      ⟨[a.data.length], a.data⟩) = some a := rfl

theorem load_axes_mkAxisEntries (gp : NodePath) (axes : List Axis) :
    ∀ c, (typedChildren (mkAxisEntries gp c axes) gp .axis).filterMap
      (fun e => load_axis (.arr .axis e.attrs e.arr)) = axes := by
  induction axes with
  | nil => intro c; rfl
  | cons a rest ih =>
      intro c
      rw [mkAxisEntries, typedChildren_cons, typedChildren_single_child, if_pos rfl,
        List.singleton_append, List.filterMap_cons]
      have hax := load_axis_mk a
      simp only [hax]
      rw [ih]

theorem getNodeL_mkArrEntries_ne_name (gp : NodePath) (dt : DataType)
    (ps : List (List (String × AttrVal) × NDArr)) (x : String)
    (hx : ∀ k, x ≠ format_node_name dt k) :
    ∀ c, getNodeL (mkArrEntries gp dt c ps) (gp ++ [x]) = none := by
  induction ps with
  | nil => intro c; rfl
  | cons pa rest ih =>
      intro c
      obtain ⟨ats, a⟩ := pa
      rw [mkArrEntries, getNodeL_cons, if_neg, ih]
      intro hcontra
      have : format_node_name dt c = x := by
        have := List.append_cancel_left hcontra
        simpa using this
      exact hx c this.symm

theorem getNodeL_mkArrEntries_at (gp : NodePath) (dt : DataType)
    (ps : List (List (String × AttrVal) × NDArr)) :
    ∀ c j (hj : j < ps.length), c + ps.length ≤ 100 →
      getNodeL (mkArrEntries gp dt c ps) (gp ++ [format_node_name dt (c + j)]) =
        some (mkArrNode dt (ps.get ⟨j, hj⟩).1 (ps.get ⟨j, hj⟩).2) := by
  induction ps with
  | nil => intro c j hj; exact absurd hj (by simp)
  | cons pa rest ih =>
      intro c j hj h100
      obtain ⟨ats, a⟩ := pa
      match j with
      | 0 =>
          rw [mkArrEntries, getNodeL_cons, if_pos (by rw [Nat.add_zero])]
          rfl
      | j' + 1 =>
          rw [mkArrEntries, getNodeL_cons, if_neg]
          · have := ih (c + 1) j' (by simpa using Nat.lt_of_succ_lt_succ hj)
              (by simpa [Nat.add_comm, Nat.add_left_comm] using h100)
            rw [show c + (j' + 1) = c + 1 + j' by omega]
            rw [this]
            rfl
          · intro hcontra
            have hx : format_node_name dt c = format_node_name dt (c + (j' + 1)) := by
              have := List.append_cancel_left hcontra
              simpa using this
            have h100' : c + (rest.length + 1) ≤ 100 := by
              simpa using h100
            have hj' : j' < rest.length := by simpa using Nat.lt_of_succ_lt_succ hj
            have := format_node_name_inj dt c (c + (j' + 1)) (by omega) (by omega) hx
            omega

/-! ### Loader lemmas -/

theorem pair_bkg_nil_right : ∀ des : List ArrEntry, pair_bkg des [] = des.map ArrEntry.arr
  | [] => rfl
  | _ :: rest => by rw [pair_bkg, List.map_cons, pair_bkg_nil_right rest]

theorem pair_bkg_eq_zipWith : ∀ (des bkgs : List ArrEntry), des.length = bkgs.length →
    pair_bkg des bkgs = List.zipWith (fun e b => sub_arr e.arr b.arr) des bkgs
  | [], [], _ => rfl
  | [], _ :: _, h => by simp at h
  | _ :: _, [], h => by simp at h
  | e :: rest, b :: brest, h => by
      rw [pair_bkg, List.zipWith_cons_cons, pair_bkg_eq_zipWith rest brest (by simpa using h)]

theorem arrSpec_map_arr (gp : NodePath) (dt : DataType)
    (ps : List (List (String × AttrVal) × NDArr)) :
    ∀ c, (arrSpec gp dt c ps).map ArrEntry.arr = ps.map Prod.snd := by
  induction ps with
  | nil => intro c; rfl
  | cons pa rest ih =>
      intro c
      obtain ⟨ats, a⟩ := pa
      rw [arrSpec, List.map_cons, List.map_cons, ih]

theorem arrSpec_map_label (gp : NodePath) (dt : DataType) (nm : String)
    (zl : List (NDArr × String)) :
    ∀ c, (arrSpec gp dt c (zl.map (fun pa => (data_attrs nm pa.2, pa.1)))).map
        (fun e => match lookupA e.attrs "label" with | some (.s v) => v | _ => "") =
      zl.map Prod.snd := by
  induction zl with
  | nil => intro c; rfl
  | cons pa rest ih =>
      intro c
      obtain ⟨a, lb⟩ := pa
      rw [List.map_cons, arrSpec, List.map_cons, ih]
      rfl

theorem labelsFilled_eq (d : DataWithAxes) (hlab : d.labels.length = d.data.length) :
    labelsFilled d = d.labels := by
  rw [labelsFilled, hlab, Nat.sub_self, List.replicate_zero, List.append_nil]

theorem dwa_pairs_eq (d : DataWithAxes) (hlab : d.labels.length = d.data.length) :
    dwa_pairs d = (d.data.zip d.labels).map (fun pa => (data_attrs d.name pa.2, pa.1)) := by
  rw [dwa_pairs, labelsFilled_eq d hlab]

theorem dwa_pairs_length (d : DataWithAxes) (hlab : d.labels.length = d.data.length) :
    (dwa_pairs d).length = d.data.length := by
  rw [dwa_pairs_eq d hlab]
  simp [hlab]

theorem countType_addArr (f0 : H5File) (gp : NodePath) (dt dt' : DataType)
    (ps : List (List (String × AttrVal) × NDArr)) (h : dt ≠ dt') :
    countType (add_typed_arrays f0 gp dt ps) gp dt' = countType f0 gp dt' := by
  rw [countType, add_typed_arrays_nodes, typedChildren_append, List.length_append,
    typedChildren_mkArrEntries_ne gp dt dt' ps h, countType]
  rfl

theorem add_data_nodes (f0 : H5File) (gp : NodePath) (d : DataWithAxes) :
    (DataSaverLoader.add_data f0 gp d).nodes =
      f0.nodes ++ mkArrEntries gp .data (countType f0 gp .data) (dwa_pairs d)
        ++ mkAxisEntries gp (countType f0 gp .axis) d.axes := by
  rw [DataSaverLoader.add_data, add_axes_nodes, add_typed_arrays_nodes,
    countType_addArr f0 gp .data .axis (dwa_pairs d) (by decide)]

/-! ### Freshness helpers -/

theorem fresh_getNodeL_none (f : H5File) (gp q : NodePath) (hq : q ≠ [])
    (h : Fresh f gp) : getNodeL f.nodes (gp ++ q) = none :=
  getNodeL_eq_none _ _ (fun nd hm => h q nd hq hm)

theorem countType_eq_zero_of_fresh (f : H5File) (gp : NodePath) (dt : DataType)
    (h : Fresh f gp) : countType f gp dt = 0 := by
  rw [countType, typedChildren_eq_nil_of_fresh f gp dt h]
  rfl

theorem fresh_base : Fresh ⟨[(["RawData"], H5Node.group)]⟩ ["RawData"] := by
  intro q nd hq hmem
  simp only [H5File.nodes, List.mem_singleton, Prod.mk.injEq] at hmem
  have : (["RawData"] : NodePath) ++ q = ["RawData"] := hmem.1
  have hlen := congrArg List.length this
  simp at hlen
  exact hq hlen

/-! ### Claim C6 -/

/-- Claim C6: `add_axis` on a fresh group creates a node whose attributes
`label`, `units`, `offset`, `scaling` and `index` equal the corresponding
fields of the axis, whose stored array equals the axis data, and `load_axis`
applied to that node returns an axis equal to the one saved. -/
theorem C6_axis_roundtrip (f0 : H5File) (gp : NodePath) (a : Axis)
    (h : Fresh f0 gp) :
    ∃ nd, getNode (add_axis f0 gp a) (gp ++ [format_node_name .axis 0]) = some nd ∧
      getAttr nd "label" = some (.s a.label) ∧
      getAttr nd "units" = some (.s a.units) ∧
      getAttr nd "offset" = some (.q a.offset) ∧
      getAttr nd "scaling" = some (.q a.scaling) ∧
      getAttr nd "index" = some (.n a.index) ∧
      node_read nd = a.data ∧
      load_axis nd = some a := by
  refine ⟨mkArrNode .axis (axis_attrs a) ⟨[a.data.length], a.data⟩, ?_, rfl, rfl, rfl, rfl,
    rfl, rfl, load_axis_mk a⟩
  rw [getNode, add_axis, countType_eq_zero_of_fresh f0 gp .axis h, addNode,
    getNodeL_append, fresh_getNodeL_none f0 gp _ (by simp) h]
  simp [getNodeL]

/-- Claim C6, witness: a concrete axis saved into a fresh file round-trips. -/
theorem C6_axis_roundtrip_witness :
    ∃ nd, getNode (add_axis ⟨[(["RawData"], H5Node.group)]⟩ ["RawData"]
        ⟨"myaxis", "myunits", [5, 7, 9], 5⟩) (["RawData"] ++ [format_node_name .axis 0])
        = some nd ∧
      getAttr nd "label" = some (.s "myaxis") ∧
      getAttr nd "units" = some (.s "myunits") ∧
      getAttr nd "offset" = some (.q (Axis.mk "myaxis" "myunits" [5, 7, 9] 5).offset) ∧
      getAttr nd "scaling" = some (.q (Axis.mk "myaxis" "myunits" [5, 7, 9] 5).scaling) ∧
      getAttr nd "index" = some (.n 5) ∧
      node_read nd = [5, 7, 9] ∧
      load_axis nd = some ⟨"myaxis", "myunits", [5, 7, 9], 5⟩ :=
  C6_axis_roundtrip ⟨[(["RawData"], H5Node.group)]⟩ ["RawData"]
    ⟨"myaxis", "myunits", [5, 7, 9], 5⟩ fresh_base

theorem fresh_extend (f : H5File) (gp q : NodePath) (h : Fresh f gp) :
    Fresh f (gp ++ q) := by
  intro r nd hr hmem
  refine h (q ++ r) nd ?_ (by rwa [List.append_assoc] at hmem)
  intro hqr
  exact hr (List.append_eq_nil.mp hqr).2

theorem getSetGroup_of_none (f : H5File) (p : NodePath) (h : getNode f p = none) :
    getSetGroup f p = addNode f p .group := by
  rw [getSetGroup, h]

theorem getSetGroup_of_some (f : H5File) (p : NodePath) (nd : H5Node)
    (h : getNode f p = some nd) : getSetGroup f p = f := by
  rw [getSetGroup, h]

theorem arrSpec_length (gp : NodePath) (dt : DataType)
    (ps : List (List (String × AttrVal) × NDArr)) :
    ∀ c, (arrSpec gp dt c ps).length = ps.length := by
  induction ps with
  | nil => intro c; rfl
  | cons pa rest ih =>
      intro c
      obtain ⟨ats, a⟩ := pa
      rw [arrSpec, List.length_cons, List.length_cons, ih]

theorem zipWith_arrSpec_sub (gp gp' : NodePath) (dt dt' : DataType)
    (ps qs : List (List (String × AttrVal) × NDArr)) :
    ∀ c c', List.zipWith (fun e b => sub_arr e.arr b.arr)
        (arrSpec gp dt c ps) (arrSpec gp' dt' c' qs) =
      List.zipWith sub_arr (ps.map Prod.snd) (qs.map Prod.snd) := by
  induction ps generalizing qs with
  | nil => intro c c'; rfl
  | cons pa rest ih =>
      intro c c'
      obtain ⟨ats, a⟩ := pa
      cases qs with
      | nil => rfl
      | cons qb qrest =>
          obtain ⟨bts, bb⟩ := qb
          rw [arrSpec, arrSpec, List.map_cons, List.map_cons, List.zipWith_cons_cons,
            List.zipWith_cons_cons, ih]

theorem dwa_pairs_map_snd (d : DataWithAxes) (hlab : d.labels.length = d.data.length) :
    (dwa_pairs d).map Prod.snd = d.data := by
  rw [dwa_pairs_eq d hlab, List.map_map]
  exact List.map_fst_zip _ _ (by omega)

theorem arrSpec_dwa_arrs (gp : NodePath) (dt : DataType) (d : DataWithAxes)
    (hlab : d.labels.length = d.data.length) :
    ∀ c, (arrSpec gp dt c (dwa_pairs d)).map ArrEntry.arr = d.data := by
  intro c
  rw [arrSpec_map_arr, dwa_pairs_map_snd d hlab]

theorem arrSpec_dwa_labels (gp : NodePath) (dt : DataType) (d : DataWithAxes)
    (hlab : d.labels.length = d.data.length) :
    ∀ c, (arrSpec gp dt c (dwa_pairs d)).map
        (fun e => match lookupA e.attrs "label" with | some (.s v) => v | _ => "")
      = d.labels := by
  intro c
  rw [dwa_pairs_eq d hlab, arrSpec_map_label]
  exact List.map_snd_zip _ _ (by omega)

theorem sub_self_flat : ∀ x : List Scalar, List.zipWith (· - ·) x x =
    List.replicate x.length 0 := by
  intro x
  induction x with
  | nil => rfl
  | cons q rest ih =>
      rw [List.zipWith_cons_cons, List.length_cons, List.replicate_succ, ih, sub_self]

theorem zipWith_sub_self : ∀ l : List NDArr, List.zipWith sub_arr l l =
    l.map (fun a => ⟨a.shape, List.replicate a.flat.length 0⟩) := by
  intro l
  induction l with
  | nil => rfl
  | cons a rest ih =>
      rw [List.zipWith_cons_cons, List.map_cons, ih, sub_arr, sub_self_flat]

theorem dte_saver_singleton (f0 : H5File) (det : NodePath) (nm : String) (d : DataWithAxes) :
    DataToExportSaver.add_data f0 det ⟨nm, [d]⟩ =
      DataSaverLoader.add_data
        (getSetGroup (getSetGroup f0 (det ++ [dwa_dim d])) (det ++ [dwa_dim d] ++ [chName 0]))
        (det ++ [dwa_dim d] ++ [chName 0]) d := by
  simp [DataToExportSaver.add_data, dims_of, data_from_dim, List.enum, List.enumFrom]

theorem dte_bkg_singleton (f0 : H5File) (det : NodePath) (nm : String) (b : DataWithAxes) :
    DataToExportSaver.add_bkg f0 det ⟨nm, [b]⟩ =
      add_typed_arrays
        (getSetGroup (getSetGroup f0 (det ++ [dwa_dim b])) (det ++ [dwa_dim b] ++ [chName 0]))
        (det ++ [dwa_dim b] ++ [chName 0]) .bkg (dwa_pairs b) := by
  simp [DataToExportSaver.add_bkg, dims_of, data_from_dim, List.enum, List.enumFrom]

/-! ### Claim C1 -/

/-- Claim C1: round-trip load semantics for fixed data: a `DataWithAxes`
saved into a fresh group by `DataSaverLoader.add_data` is returned unchanged
by `load_data`, whether pointed at the created data node or at the enclosing
group, and `get_axes` on the group returns axes equal in order to the saved
axes. -/
theorem C1_fixed_roundtrip (f0 : H5File) (gp : NodePath) (d : DataWithAxes)
    (h : Fresh f0 gp) (hgp : getNode f0 gp = some .group)
    (hlab : d.labels.length = d.data.length) (hne : d.data ≠ [])
    (h100 : d.data.length ≤ 100) :
    load_data (DataSaverLoader.add_data f0 gp d) (gp ++ [format_node_name .data 0]) = some d ∧
      load_data (DataSaverLoader.add_data f0 gp d) gp = some d ∧
      get_axes (DataSaverLoader.add_data f0 gp d) gp = d.axes := by
  obtain ⟨nm, data, labels, axes⟩ := d
  simp only [DataWithAxes.data, DataWithAxes.labels] at hlab hne h100
  match data, labels, hne, hlab with
  | a0 :: arest, l0 :: lrest, _, hlab =>
  have hlab' : (l0 :: lrest).length = (a0 :: arest).length := by simpa using hlab
  have hlrest : lrest.length = arest.length := by simpa using hlab
  have hps : dwa_pairs ⟨nm, a0 :: arest, l0 :: lrest, axes⟩ =
      (data_attrs nm l0, a0) :: (arest.zip lrest).map (fun pa => (data_attrs nm pa.2, pa.1)) := by
    rw [dwa_pairs_eq _ hlab']
    rfl
  have hzlen : ((data_attrs nm l0, a0) :: (arest.zip lrest).map
      (fun pa => (data_attrs nm pa.2, pa.1))).length ≤ 100 := by
    simp only [List.length_cons, List.length_map, List.length_zip, hlrest, Nat.min_self]
    simpa using h100
  have hF : (DataSaverLoader.add_data f0 gp ⟨nm, a0 :: arest, l0 :: lrest, axes⟩).nodes =
      f0.nodes ++ mkArrEntries gp .data 0 ((data_attrs nm l0, a0) :: (arest.zip lrest).map
        (fun pa => (data_attrs nm pa.2, pa.1))) ++ mkAxisEntries gp 0 axes := by
    rw [add_data_nodes, countType_eq_zero_of_fresh f0 gp .data h,
      countType_eq_zero_of_fresh f0 gp .axis h, hps]
  have hget0 : getNodeL (f0.nodes ++ mkArrEntries gp .data 0 ((data_attrs nm l0, a0) ::
        (arest.zip lrest).map (fun pa => (data_attrs nm pa.2, pa.1))) ++ mkAxisEntries gp 0 axes)
      (gp ++ [format_node_name .data 0]) = some (mkArrNode .data (data_attrs nm l0) a0) := by
    have hB := getNodeL_mkArrEntries_at gp .data ((data_attrs nm l0, a0) ::
      (arest.zip lrest).map (fun pa => (data_attrs nm pa.2, pa.1))) 0 0 (by simp)
      (by simpa using hzlen)
    simp only [Nat.add_zero] at hB
    simp only [getNodeL_append,
      fresh_getNodeL_none f0 gp [format_node_name .data 0] (by simp) h]
    rw [hB]
    rfl
  have hgp2 : getNodeL f0.nodes gp = some H5Node.group := hgp
  have hgetgp : getNodeL (f0.nodes ++ mkArrEntries gp .data 0 ((data_attrs nm l0, a0) ::
        (arest.zip lrest).map (fun pa => (data_attrs nm pa.2, pa.1))) ++ mkAxisEntries gp 0 axes)
      gp = some H5Node.group := by
    simp only [getNodeL_append, hgp2]
  have hdes : typedChildren (f0.nodes ++ mkArrEntries gp .data 0 ((data_attrs nm l0, a0) ::
        (arest.zip lrest).map (fun pa => (data_attrs nm pa.2, pa.1))) ++ mkAxisEntries gp 0 axes)
      gp .data = arrSpec gp .data 0 ((data_attrs nm l0, a0) :: (arest.zip lrest).map
        (fun pa => (data_attrs nm pa.2, pa.1))) := by
    rw [typedChildren_append, typedChildren_append,
      typedChildren_eq_nil_of_fresh f0 gp .data h,
      typedChildren_mkArrEntries_self, mkAxisEntries_eq,
      typedChildren_mkArrEntries_ne gp .axis .data _ (by decide)]
    simp
  have hbkg : typedChildren (f0.nodes ++ mkArrEntries gp .data 0 ((data_attrs nm l0, a0) ::
        (arest.zip lrest).map (fun pa => (data_attrs nm pa.2, pa.1))) ++ mkAxisEntries gp 0 axes)
      gp .bkg = [] := by
    rw [typedChildren_append, typedChildren_append,
      typedChildren_eq_nil_of_fresh f0 gp .bkg h,
      typedChildren_mkArrEntries_ne gp .data .bkg _ (by decide), mkAxisEntries_eq,
      typedChildren_mkArrEntries_ne gp .axis .bkg _ (by decide)]
    simp
  have haxs : (typedChildren (f0.nodes ++ mkArrEntries gp .data 0 ((data_attrs nm l0, a0) ::
        (arest.zip lrest).map (fun pa => (data_attrs nm pa.2, pa.1))) ++ mkAxisEntries gp 0 axes)
      gp .axis).filterMap (fun e => load_axis (.arr .axis e.attrs e.arr)) = axes := by
    rw [typedChildren_append, typedChildren_append,
      typedChildren_eq_nil_of_fresh f0 gp .axis h,
      typedChildren_mkArrEntries_ne gp .data .axis _ (by decide)]
    simpa using load_axes_mkAxisEntries gp axes 0
  have htaila : ((arest.zip lrest).map (fun pa => (data_attrs nm pa.2, pa.1))).map Prod.snd
      = arest := by
    rw [List.map_map]
    exact List.map_fst_zip arest lrest (by omega)
  have hdata : (arrSpec gp .data 0 ((data_attrs nm l0, a0) :: (arest.zip lrest).map
      (fun pa => (data_attrs nm pa.2, pa.1)))).map ArrEntry.arr = a0 :: arest := by
    rw [arrSpec, List.map_cons, arrSpec_map_arr, htaila]
  have hlabels : (arrSpec gp .data 0 ((data_attrs nm l0, a0) :: (arest.zip lrest).map
      (fun pa => (data_attrs nm pa.2, pa.1)))).map
        (fun e => match lookupA e.attrs "label" with | some (.s v) => v | _ => "")
      = l0 :: lrest := by
    rw [arrSpec, List.map_cons, arrSpec_map_label]
    rw [List.map_snd_zip arest lrest (by omega)]
    rfl
  refine ⟨?_, ?_, ?_⟩
  · simp only [load_data, getNode, hF, hget0, mkArrNode, List.dropLast_concat]
    rw [hbkg, hdes, arrSpec]
    simp only [pair_bkg_nil_right, List.headD_cons, List.map_cons, Option.some.injEq,
      DataWithAxes.mk.injEq]
    refine ⟨rfl, ?_, ?_, haxs⟩
    · rw [arrSpec_map_arr, htaila]
    · rw [arrSpec_map_label, List.map_snd_zip arest lrest (by omega)]
      rfl
  · simp only [load_data, getNode, hF, hgetgp]
    rw [hbkg, hdes, arrSpec]
    simp only [pair_bkg_nil_right, List.headD_cons, List.map_cons, Option.some.injEq,
      DataWithAxes.mk.injEq]
    refine ⟨rfl, ?_, ?_, haxs⟩
    · rw [arrSpec_map_arr, htaila]
    · rw [arrSpec_map_label, List.map_snd_zip arest lrest (by omega)]
      rfl
  · simp only [get_axes, getNode, hF, hgetgp]
    exact haxs

/-- Claim C1, witness: a concrete two-channel 1D data set with one axis
round-trips through a fresh `/RawData` group. -/
theorem C1_fixed_roundtrip_witness :
    load_data (DataSaverLoader.add_data ⟨[(["RawData"], H5Node.group)]⟩ ["RawData"]
        ⟨"mydata", [⟨[2], [1, 2]⟩, ⟨[2], [3, 4]⟩], ["l1", "l2"], [⟨"ax0", "u0", [5, 6], 0⟩]⟩)
      (["RawData"] ++ [format_node_name .data 0])
      = some ⟨"mydata", [⟨[2], [1, 2]⟩, ⟨[2], [3, 4]⟩], ["l1", "l2"],
          [⟨"ax0", "u0", [5, 6], 0⟩]⟩ ∧
      load_data (DataSaverLoader.add_data ⟨[(["RawData"], H5Node.group)]⟩ ["RawData"]
        ⟨"mydata", [⟨[2], [1, 2]⟩, ⟨[2], [3, 4]⟩], ["l1", "l2"], [⟨"ax0", "u0", [5, 6], 0⟩]⟩)
      ["RawData"]
      = some ⟨"mydata", [⟨[2], [1, 2]⟩, ⟨[2], [3, 4]⟩], ["l1", "l2"],
          [⟨"ax0", "u0", [5, 6], 0⟩]⟩ ∧
      get_axes (DataSaverLoader.add_data ⟨[(["RawData"], H5Node.group)]⟩ ["RawData"]
        ⟨"mydata", [⟨[2], [1, 2]⟩, ⟨[2], [3, 4]⟩], ["l1", "l2"], [⟨"ax0", "u0", [5, 6], 0⟩]⟩)
      ["RawData"]
      = [⟨"ax0", "u0", [5, 6], 0⟩] :=
  C1_fixed_roundtrip ⟨[(["RawData"], H5Node.group)]⟩ ["RawData"]
    ⟨"mydata", [⟨[2], [1, 2]⟩, ⟨[2], [3, 4]⟩], ["l1", "l2"], [⟨"ax0", "u0", [5, 6], 0⟩]⟩
    fresh_base rfl (by decide) (by decide) (by decide)


/-! ### Claim C3 -/

theorem getNodeL_mkArrEntries_none_of_len (gp : NodePath) (dt : DataType)
    (ps : List (List (String × AttrVal) × NDArr)) (q : NodePath)
    (hq : q.length ≠ gp.length + 1) :
    ∀ c, getNodeL (mkArrEntries gp dt c ps) q = none := by
  induction ps with
  | nil => intro c; rfl
  | cons pa rest ih =>
      intro c
      obtain ⟨ats, a⟩ := pa
      rw [mkArrEntries, getNodeL_cons, if_neg, ih]
      intro hcontra
      have := congrArg List.length hcontra
      simp at this
      omega

/-- Claim C3: background subtraction on load: when a `DataToExportSaver`
saves data under a group and then a background under the same group,
`load_data` on a data node of that group returns the saved data minus the
background elementwise, and when the background equals the data every loaded
array is all zeros. -/
theorem C3_bkg_subtraction (f0 : H5File) (det : NodePath) (nmD nmB : String)
    (d b : DataWithAxes) (h : Fresh f0 det) (hdim : dwa_dim b = dwa_dim d)
    (hlab : d.labels.length = d.data.length) (hlabb : b.labels.length = b.data.length)
    (hblen : b.data.length = d.data.length) (hne : d.data ≠ [])
    (h100 : d.data.length ≤ 100) :
    load_data (DataToExportSaver.add_bkg (DataToExportSaver.add_data f0 det ⟨nmD, [d]⟩)
        det ⟨nmB, [b]⟩)
      (det ++ [dwa_dim d] ++ [chName 0] ++ [format_node_name .data 0])
      = some ⟨d.name, List.zipWith sub_arr d.data b.data, d.labels, d.axes⟩ ∧
    (b = d →
      load_data (DataToExportSaver.add_bkg (DataToExportSaver.add_data f0 det ⟨nmD, [d]⟩)
          det ⟨nmB, [b]⟩)
        (det ++ [dwa_dim d] ++ [chName 0] ++ [format_node_name .data 0])
        = some ⟨d.name, d.data.map (fun a => ⟨a.shape, List.replicate a.flat.length 0⟩),
            d.labels, d.axes⟩) := by
  have hfr1 : Fresh f0 (det ++ [dwa_dim d]) := fresh_extend f0 det _ h
  have hfr2 : Fresh f0 (det ++ [dwa_dim d] ++ [chName 0]) := by
    rw [List.append_assoc]
    exact fresh_extend f0 det _ h
  have hne12 : det ++ [dwa_dim d] ≠ det ++ [dwa_dim d] ++ [chName 0] := by
    intro he
    have := congrArg List.length he
    simp at this
  have hg1 : getNode f0 (det ++ [dwa_dim d]) = none :=
    fresh_getNodeL_none f0 det [dwa_dim d] (by simp) h
  have hA := getSetGroup_of_none f0 (det ++ [dwa_dim d]) hg1
  have hg2 : getNode (addNode f0 (det ++ [dwa_dim d]) .group)
      (det ++ [dwa_dim d] ++ [chName 0]) = none := by
    rw [getNode, addNode, getNodeL_append]
    rw [show getNodeL f0.nodes (det ++ [dwa_dim d] ++ [chName 0]) = none from
      fresh_getNodeL_none f0 (det ++ [dwa_dim d]) [chName 0] (by simp) hfr1]
    rw [getNodeL_cons, if_neg hne12]
    rfl
  have hB := getSetGroup_of_none _ _ hg2
  have hg1L : getNodeL f0.nodes (det ++ [dwa_dim d]) = none := hg1
  have hg2L : getNodeL f0.nodes (det ++ [dwa_dim d] ++ [chName 0]) = none :=
    fresh_getNodeL_none f0 (det ++ [dwa_dim d]) [chName 0] (by simp) hfr1
  have hcnt : ∀ dt' : DataType,
      countType (addNode (addNode f0 (det ++ [dwa_dim d]) .group)
        (det ++ [dwa_dim d] ++ [chName 0]) .group)
        (det ++ [dwa_dim d] ++ [chName 0]) dt' = 0 := by
    intro dt'
    rw [countType, addNode, addNode]
    show (typedChildren ((f0.nodes ++ [(det ++ [dwa_dim d], H5Node.group)]) ++
      [(det ++ [dwa_dim d] ++ [chName 0], H5Node.group)])
      (det ++ [dwa_dim d] ++ [chName 0]) dt').length = 0
    rw [typedChildren_append, typedChildren_append,
      typedChildren_eq_nil_of_fresh f0 _ dt' hfr2,
      typedChildren_single_group, typedChildren_single_group]
    rfl
  have hF1 : (DataSaverLoader.add_data (getSetGroup (getSetGroup f0 (det ++ [dwa_dim d]))
        (det ++ [dwa_dim d] ++ [chName 0])) (det ++ [dwa_dim d] ++ [chName 0]) d).nodes =
      f0.nodes ++ [(det ++ [dwa_dim d], H5Node.group)]
        ++ [(det ++ [dwa_dim d] ++ [chName 0], H5Node.group)]
        ++ mkArrEntries (det ++ [dwa_dim d] ++ [chName 0]) .data 0 (dwa_pairs d)
        ++ mkAxisEntries (det ++ [dwa_dim d] ++ [chName 0]) 0 d.axes := by
    rw [hA, hB, add_data_nodes, hcnt, hcnt]
    rfl
  have hne13 : det ++ [dwa_dim d] ≠ det ++ [dwa_dim d] ++ [chName 0] ++
      [format_node_name .data 0] := by
    intro he
    have := congrArg List.length he
    simp at this
  have hne23 : det ++ [dwa_dim d] ++ [chName 0] ≠ det ++ [dwa_dim d] ++ [chName 0] ++
      [format_node_name .data 0] := by
    intro he
    have := congrArg List.length he
    simp at this
  have hgetdim : getNode (DataSaverLoader.add_data (getSetGroup (getSetGroup f0
        (det ++ [dwa_dim d])) (det ++ [dwa_dim d] ++ [chName 0]))
        (det ++ [dwa_dim d] ++ [chName 0]) d) (det ++ [dwa_dim d]) = some .group := by
    rw [getNode, hF1]
    simp only [getNodeL_append, hg1L]
    rw [getNodeL_cons, if_pos rfl]
  have hgetch : getNode (DataSaverLoader.add_data (getSetGroup (getSetGroup f0
        (det ++ [dwa_dim d])) (det ++ [dwa_dim d] ++ [chName 0]))
        (det ++ [dwa_dim d] ++ [chName 0]) d) (det ++ [dwa_dim d] ++ [chName 0])
      = some .group := by
    rw [getNode, hF1]
    simp only [getNodeL_append, hg2L]
    rw [getNodeL_cons, if_neg hne12, getNodeL_nil, getNodeL_cons, if_pos rfl]
  have hcntbkg : countType (DataSaverLoader.add_data (getSetGroup (getSetGroup f0
        (det ++ [dwa_dim d])) (det ++ [dwa_dim d] ++ [chName 0]))
        (det ++ [dwa_dim d] ++ [chName 0]) d) (det ++ [dwa_dim d] ++ [chName 0]) .bkg
      = 0 := by
    rw [countType, hF1]
    rw [typedChildren_append, typedChildren_append, typedChildren_append,
      typedChildren_append, typedChildren_eq_nil_of_fresh f0 _ .bkg hfr2,
      typedChildren_single_group, typedChildren_single_group,
      typedChildren_mkArrEntries_ne _ .data .bkg _ (by decide), mkAxisEntries_eq,
      typedChildren_mkArrEntries_ne _ .axis .bkg _ (by decide)]
    rfl
  have hF2 : (DataToExportSaver.add_bkg (DataToExportSaver.add_data f0 det ⟨nmD, [d]⟩)
        det ⟨nmB, [b]⟩).nodes =
      f0.nodes ++ [(det ++ [dwa_dim d], H5Node.group)]
        ++ [(det ++ [dwa_dim d] ++ [chName 0], H5Node.group)]
        ++ mkArrEntries (det ++ [dwa_dim d] ++ [chName 0]) .data 0 (dwa_pairs d)
        ++ mkAxisEntries (det ++ [dwa_dim d] ++ [chName 0]) 0 d.axes
        ++ mkArrEntries (det ++ [dwa_dim d] ++ [chName 0]) .bkg 0 (dwa_pairs b) := by
    rw [dte_saver_singleton, dte_bkg_singleton, hdim,
      getSetGroup_of_some _ _ _ hgetdim, getSetGroup_of_some _ _ _ hgetch,
      add_typed_arrays_nodes, hcntbkg, hF1]
  obtain ⟨a0, arest, ha⟩ : ∃ x xs, d.data = x :: xs := by
    cases hd : d.data with
    | nil => exact absurd hd hne
    | cons x xs => exact ⟨x, xs, rfl⟩
  obtain ⟨l0, lrest, hl⟩ : ∃ y ys, d.labels = y :: ys := by
    cases hld : d.labels with
    | nil => rw [hld, ha] at hlab; simp at hlab
    | cons y ys => exact ⟨y, ys, rfl⟩
  have hps : dwa_pairs d = (data_attrs d.name l0, a0) ::
      (arest.zip lrest).map (fun pa => (data_attrs d.name pa.2, pa.1)) := by
    rw [dwa_pairs_eq d hlab, ha, hl]
    rfl
  have hg3L : getNodeL f0.nodes (det ++ [dwa_dim d] ++ [chName 0] ++
      [format_node_name .data 0]) = none := by
    rw [List.append_assoc, List.append_assoc]
    exact fresh_getNodeL_none f0 det _ (by simp) h
  have hsegB : getNodeL [(det ++ [dwa_dim d], H5Node.group)]
      (det ++ [dwa_dim d] ++ [chName 0] ++ [format_node_name .data 0]) = none := by
    rw [getNodeL_cons, if_neg hne13]
    rfl
  have hsegC : getNodeL [(det ++ [dwa_dim d] ++ [chName 0], H5Node.group)]
      (det ++ [dwa_dim d] ++ [chName 0] ++ [format_node_name .data 0]) = none := by
    rw [getNodeL_cons, if_neg hne23]
    rfl
  have hsegD : getNodeL (mkArrEntries (det ++ [dwa_dim d] ++ [chName 0]) .data 0
        (dwa_pairs d)) (det ++ [dwa_dim d] ++ [chName 0] ++ [format_node_name .data 0])
      = some (mkArrNode .data (data_attrs d.name l0) a0) := by
    rw [hps, mkArrEntries, getNodeL_cons, if_pos rfl]
  have hget0 : getNode (DataToExportSaver.add_bkg (DataToExportSaver.add_data f0 det
        ⟨nmD, [d]⟩) det ⟨nmB, [b]⟩)
      (det ++ [dwa_dim d] ++ [chName 0] ++ [format_node_name .data 0])
      = some (mkArrNode .data (data_attrs d.name l0) a0) := by
    rw [getNode, hF2]
    simp only [getNodeL_append, hg3L, hsegB, hsegC, hsegD]
  have hdes : typedChildren (f0.nodes ++ [(det ++ [dwa_dim d], H5Node.group)]
        ++ [(det ++ [dwa_dim d] ++ [chName 0], H5Node.group)]
        ++ mkArrEntries (det ++ [dwa_dim d] ++ [chName 0]) .data 0 (dwa_pairs d)
        ++ mkAxisEntries (det ++ [dwa_dim d] ++ [chName 0]) 0 d.axes
        ++ mkArrEntries (det ++ [dwa_dim d] ++ [chName 0]) .bkg 0 (dwa_pairs b))
      (det ++ [dwa_dim d] ++ [chName 0]) .data
      = arrSpec (det ++ [dwa_dim d] ++ [chName 0]) .data 0 (dwa_pairs d) := by
    rw [typedChildren_append, typedChildren_append, typedChildren_append,
      typedChildren_append, typedChildren_append,
      typedChildren_eq_nil_of_fresh f0 _ .data hfr2,
      typedChildren_single_group, typedChildren_single_group,
      typedChildren_mkArrEntries_self, mkAxisEntries_eq,
      typedChildren_mkArrEntries_ne _ .axis .data _ (by decide),
      typedChildren_mkArrEntries_ne _ .bkg .data _ (by decide)]
    simp
  have hbkgs : typedChildren (f0.nodes ++ [(det ++ [dwa_dim d], H5Node.group)]
        ++ [(det ++ [dwa_dim d] ++ [chName 0], H5Node.group)]
        ++ mkArrEntries (det ++ [dwa_dim d] ++ [chName 0]) .data 0 (dwa_pairs d)
        ++ mkAxisEntries (det ++ [dwa_dim d] ++ [chName 0]) 0 d.axes
        ++ mkArrEntries (det ++ [dwa_dim d] ++ [chName 0]) .bkg 0 (dwa_pairs b))
      (det ++ [dwa_dim d] ++ [chName 0]) .bkg
      = arrSpec (det ++ [dwa_dim d] ++ [chName 0]) .bkg 0 (dwa_pairs b) := by
    rw [typedChildren_append, typedChildren_append, typedChildren_append,
      typedChildren_append, typedChildren_append,
      typedChildren_eq_nil_of_fresh f0 _ .bkg hfr2,
      typedChildren_single_group, typedChildren_single_group,
      typedChildren_mkArrEntries_self, mkAxisEntries_eq,
      typedChildren_mkArrEntries_ne _ .axis .bkg _ (by decide),
      typedChildren_mkArrEntries_ne _ .data .bkg _ (by decide)]
    simp
  have haxs : (typedChildren (f0.nodes ++ [(det ++ [dwa_dim d], H5Node.group)]
        ++ [(det ++ [dwa_dim d] ++ [chName 0], H5Node.group)]
        ++ mkArrEntries (det ++ [dwa_dim d] ++ [chName 0]) .data 0 (dwa_pairs d)
        ++ mkAxisEntries (det ++ [dwa_dim d] ++ [chName 0]) 0 d.axes
        ++ mkArrEntries (det ++ [dwa_dim d] ++ [chName 0]) .bkg 0 (dwa_pairs b))
      (det ++ [dwa_dim d] ++ [chName 0]) .axis).filterMap
      (fun e => load_axis (.arr .axis e.attrs e.arr)) = d.axes := by
    rw [typedChildren_append, typedChildren_append, typedChildren_append,
      typedChildren_append, typedChildren_append,
      typedChildren_eq_nil_of_fresh f0 _ .axis hfr2,
      typedChildren_single_group, typedChildren_single_group,
      typedChildren_mkArrEntries_ne _ .data .axis _ (by decide),
      typedChildren_mkArrEntries_ne _ .bkg .axis _ (by decide)]
    simpa using load_axes_mkAxisEntries (det ++ [dwa_dim d] ++ [chName 0]) d.axes 0
  have hlens : (arrSpec (det ++ [dwa_dim d] ++ [chName 0]) .data 0 (dwa_pairs d)).length
      = (arrSpec (det ++ [dwa_dim d] ++ [chName 0]) .bkg 0 (dwa_pairs b)).length := by
    rw [arrSpec_length, arrSpec_length, dwa_pairs_length d hlab, dwa_pairs_length b hlabb,
      hblen]
  have hform : (ArrEntry.mk (det ++ [dwa_dim d] ++ [chName 0] ++ [format_node_name .data 0])
        (data_attrs d.name l0 ++ [("data_type", AttrVal.s DataType.data.tname)]) a0 ::
        arrSpec (det ++ [dwa_dim d] ++ [chName 0]) .data (0 + 1)
          ((arest.zip lrest).map (fun pa => (data_attrs d.name pa.2, pa.1))))
      = arrSpec (det ++ [dwa_dim d] ++ [chName 0]) .data 0 (dwa_pairs d) := by
    rw [hps]
    rfl
  have H1 : load_data (DataToExportSaver.add_bkg (DataToExportSaver.add_data f0 det
        ⟨nmD, [d]⟩) det ⟨nmB, [b]⟩)
      (det ++ [dwa_dim d] ++ [chName 0] ++ [format_node_name .data 0])
      = some ⟨d.name, List.zipWith sub_arr d.data b.data, d.labels, d.axes⟩ := by
    simp only [load_data, hget0, mkArrNode, List.dropLast_concat, hF2]
    rw [hbkgs, hdes, hps, arrSpec]
    simp only [List.headD_cons, Option.some.injEq, DataWithAxes.mk.injEq]
    refine ⟨rfl, ?_, ?_, ?_⟩
    · rw [hform, pair_bkg_eq_zipWith _ _ hlens, zipWith_arrSpec_sub,
        dwa_pairs_map_snd d hlab, dwa_pairs_map_snd b hlabb]
    · rw [hform, arrSpec_dwa_labels _ .data d hlab]
    · rw [← hps]
      exact haxs
  refine ⟨H1, ?_⟩
  intro hbd
  subst hbd
  rw [zipWith_sub_self] at H1
  exact H1

theorem fresh_base_det : Fresh ⟨[(["RawData"], H5Node.group),
    (["RawData", "MyDet"], H5Node.group)]⟩ ["RawData", "MyDet"] := by
  intro q nd hq hmem
  simp only [H5File.nodes, List.mem_cons, List.mem_singleton, Prod.mk.injEq,
    List.not_mem_nil, or_false] at hmem
  rcases hmem with ⟨h1, _⟩ | ⟨h1, _⟩
  · have hlen := congrArg List.length h1
    simp at hlen
  · have hlen := congrArg List.length h1
    simp at hlen
    exact hq hlen

/-- Claim C3, witness: concrete 1D data with a concrete background subtract on
load under a fresh detector group. -/
theorem C3_bkg_subtraction_witness :
    load_data (DataToExportSaver.add_bkg (DataToExportSaver.add_data
        ⟨[(["RawData"], H5Node.group), (["RawData", "MyDet"], H5Node.group)]⟩
        ["RawData", "MyDet"] ⟨"big", [⟨"mydata", [⟨[2], [1, 2]⟩], ["l1"], []⟩]⟩)
        ["RawData", "MyDet"] ⟨"bkg", [⟨"mybkg", [⟨[2], [5, 7]⟩], ["lb"], []⟩]⟩)
      (["RawData", "MyDet"] ++ [dwa_dim ⟨"mydata", [⟨[2], [1, 2]⟩], ["l1"], []⟩]
        ++ [chName 0] ++ [format_node_name .data 0])
      = some ⟨"mydata", List.zipWith sub_arr [⟨[2], [1, 2]⟩] [⟨[2], [5, 7]⟩], ["l1"], []⟩ :=
  (C3_bkg_subtraction ⟨[(["RawData"], H5Node.group), (["RawData", "MyDet"], H5Node.group)]⟩
    ["RawData", "MyDet"] "big" "bkg"
    ⟨"mydata", [⟨[2], [1, 2]⟩], ["l1"], []⟩ ⟨"mybkg", [⟨[2], [5, 7]⟩], ["lb"], []⟩
    fresh_base_det (by decide) (by decide) (by decide) (by decide) (by decide)
    (by decide)).1


/-! ### Claim C4 -/

theorem lin_index_lt (S I : List Nat) (h : List.Forall₂ (· < ·) I S) :
    lin_index S I < S.prod := by
  induction h with
  | nil => exact Nat.zero_lt_one
  | @cons i s is ss hab htl ih =>
      rw [lin_index, List.prod_cons]
      calc i * ss.prod + lin_index ss is < i * ss.prod + ss.prod := by omega
        _ = (i + 1) * ss.prod := by ring
        _ ≤ s * ss.prod := Nat.mul_le_mul_right _ (by omega)

theorem read_write (S s : List Nat) (blk : List Scalar) (hblk : blk.length = s.prod)
    (I : List Nat) (h : List.Forall₂ (· < ·) I S) :
    read_block (write_at (zeros_arr (S ++ s)) (lin_index S I * s.prod) blk) S.length I
      = blk := by
  have hlt := lin_index_lt S I h
  have hoff_le : lin_index S I * s.prod ≤ ((S ++ s).prod) := by
    rw [List.prod_append]
    exact le_trans (Nat.mul_le_mul_right _ (by omega)) (le_of_eq rfl)
  rw [read_block, write_at, zeros_arr]
  simp only [List.take_left, List.drop_left]
  have hA : (List.take (lin_index S I * s.prod)
      (List.replicate ((S ++ s).prod) (0 : Scalar))).length = lin_index S I * s.prod := by
    rw [List.length_take, List.length_replicate]
    exact Nat.min_eq_left hoff_le
  rw [List.append_assoc, List.drop_left' hA, List.take_left' hblk]

theorem get_congr_list {α : Type} (l₁ l₂ : List α) (hl : l₁ = l₂) (j : Nat)
    (h1 : j < l₁.length) (h2 : j < l₂.length) : l₁.get ⟨j, h1⟩ = l₂.get ⟨j, h2⟩ := by
  subst hl
  rfl

/-- Claim C4: indexed writes of extended data: `DataExtendedSaver.add_data`
with indexes `I` creates for each array of the data a node whose `shape`
attribute is the extended shape followed by the data shape, zero-filled with
the array written at `I` so that reading the node at `I` returns the array;
the saver's `extended_shape` stays the one given at construction. -/
theorem C4_extended_indexed_write (S : List Nat) (f0 : H5File) (gp : NodePath)
    (d : DataWithAxes) (I : List Nat) (h : Fresh f0 gp)
    (hlab : d.labels.length = d.data.length) (h100 : d.data.length ≤ 100)
    (hI : List.Forall₂ (· < ·) I S)
    (hwf : ∀ a ∈ d.data, a.flat.length = a.shape.prod) :
    (∀ j (hj : j < d.data.length),
      ∃ nd, getNode ((DataExtendedSaver.mk S).add_data f0 gp d I)
          (gp ++ [format_node_name .data j]) = some nd ∧
        getAttr nd "shape" = some (.shp (S ++ (d.data.get ⟨j, hj⟩).shape)) ∧
        node_read_block nd S.length I = (d.data.get ⟨j, hj⟩).flat) ∧
      (DataExtendedSaver.mk S).extended_shape = S := by
  refine ⟨?_, rfl⟩
  intro j hj
  have hEPlen : ((dwa_pairs d).map (fun pa => (pa.1,
      write_at (zeros_arr (S ++ pa.2.shape)) (lin_index S I * pa.2.shape.prod)
        pa.2.flat))).length = d.data.length := by
    rw [List.length_map, dwa_pairs_length d hlab]
  have hjEP : j < ((dwa_pairs d).map (fun pa => (pa.1,
      write_at (zeros_arr (S ++ pa.2.shape)) (lin_index S I * pa.2.shape.prod)
        pa.2.flat))).length := by omega
  have hjP : j < (dwa_pairs d).length := by
    rw [dwa_pairs_length d hlab]
    omega
  have hF : ((DataExtendedSaver.mk S).add_data f0 gp d I).nodes =
      f0.nodes ++ mkArrEntries gp .data 0 ((dwa_pairs d).map (fun pa => (pa.1,
        write_at (zeros_arr (S ++ pa.2.shape)) (lin_index S I * pa.2.shape.prod)
          pa.2.flat))) ++ mkAxisEntries gp 0 d.axes := by
    rw [DataExtendedSaver.add_data, add_axes_nodes, add_typed_arrays_nodes,
      countType_addArr f0 gp .data .axis _ (by decide),
      countType_eq_zero_of_fresh f0 gp .data h, countType_eq_zero_of_fresh f0 gp .axis h]
  have hB := getNodeL_mkArrEntries_at gp .data ((dwa_pairs d).map (fun pa => (pa.1,
      write_at (zeros_arr (S ++ pa.2.shape)) (lin_index S I * pa.2.shape.prod)
        pa.2.flat))) 0 j hjEP (by omega)
  simp only [Nat.zero_add, List.get_eq_getElem, List.getElem_map] at hB
  have hms : j < ((dwa_pairs d).map Prod.snd).length := by
    rw [List.length_map]
    omega
  have h1 : ((dwa_pairs d).map Prod.snd).get ⟨j, hms⟩ = d.data.get ⟨j, hj⟩ :=
    get_congr_list _ _ (dwa_pairs_map_snd d hlab) j hms hj
  have h2 : ((dwa_pairs d).map Prod.snd).get ⟨j, hms⟩ = ((dwa_pairs d).get ⟨j, hjP⟩).2 := by
    simp only [List.get_eq_getElem, List.getElem_map]
  have hsndE : ((dwa_pairs d).get ⟨j, hjP⟩).2 = d.data.get ⟨j, hj⟩ := h2.symm.trans h1
  simp only [List.get_eq_getElem] at hsndE
  rw [hsndE] at hB
  refine ⟨mkArrNode .data ((dwa_pairs d).get ⟨j, hjP⟩).1
    (write_at (zeros_arr (S ++ (d.data.get ⟨j, hj⟩).shape))
      (lin_index S I * (d.data.get ⟨j, hj⟩).shape.prod) (d.data.get ⟨j, hj⟩).flat),
    ?_, ?_, ?_⟩
  · rw [getNode, hF]
    simp only [getNodeL_append,
      fresh_getNodeL_none f0 gp [format_node_name .data j] (by simp) h, hB]
    simp only [List.get_eq_getElem]
  · rfl
  · have hmem2 : d.data.get ⟨j, hj⟩ ∈ d.data := List.get_mem d.data j hj
    exact read_write S (d.data.get ⟨j, hj⟩).shape (d.data.get ⟨j, hj⟩).flat
      (hwf _ hmem2) I hI

/-- Claim C4, witness: a one-array 1D data set written at index (1,2) of a
(2,3) extended shape. -/
theorem C4_extended_indexed_write_witness :
    (∃ nd, getNode ((DataExtendedSaver.mk [2, 3]).add_data ⟨[(["RawData"], H5Node.group)]⟩
        ["RawData"] ⟨"mydata", [⟨[2], [7, 9]⟩], ["l1"], []⟩ [1, 2])
        (["RawData"] ++ [format_node_name .data 0]) = some nd ∧
      getAttr nd "shape" = some (.shp [2, 3, 2]) ∧
      node_read_block nd 2 [1, 2] = [7, 9]) ∧
    (DataExtendedSaver.mk [2, 3]).extended_shape = [2, 3] :=
  ⟨(C4_extended_indexed_write [2, 3] ⟨[(["RawData"], H5Node.group)]⟩ ["RawData"]
      ⟨"mydata", [⟨[2], [7, 9]⟩], ["l1"], []⟩ [1, 2] fresh_base (by decide) (by decide)
      (by decide) (by decide)).1 0 (by decide),
    (C4_extended_indexed_write [2, 3] ⟨[(["RawData"], H5Node.group)]⟩ ["RawData"]
      ⟨"mydata", [⟨[2], [7, 9]⟩], ["l1"], []⟩ [1, 2] fresh_base (by decide) (by decide)
      (by decide) (by decide)).2⟩


/-! ### Claims C2 and C5 -/

theorem enl_base_check : iterEnl 7 1 = expectedEnl 1 [7] [1, 2] [3, 4] := rfl
theorem enl_step_check (v : Scalar) (m : Nat) (flnav fl0 fl1 : List Scalar) :
    DataToExportEnlargeableSaver.add_data (expectedEnl m flnav fl0 fl1)
      ["RawData", "MyDet"] sample_dte v
      = expectedEnl (m + 1) (flnav ++ [v]) (fl0 ++ [1, 2]) (fl1 ++ [3, 4]) := rfl

theorem enl_base (v : Scalar) : iterEnl v 1 = expectedEnl 1 [v] [1, 2] [3, 4] := by
  with_unfolding_all rfl

theorem timed_base : iterTimed 1 = expectedEnl 1 [(0 : Scalar)] [1, 2] [3, 4] := by
  with_unfolding_all rfl

theorem timed_step_check (v : Scalar) (m : Nat) (flnav fl0 fl1 : List Scalar) :
    DataToExportTimedSaver.add_data (expectedEnl m flnav fl0 fl1)
      ["RawData", "MyDet"] sample_dte v
      = expectedEnl (m + 1) (flnav ++ [v]) (fl0 ++ [1, 2]) (fl1 ++ [3, 4]) :=
  enl_step_check v m flnav fl0 fl1

theorem iterEnl_exists (v : Scalar) : ∀ n : Nat, ∃ flnav fl0 fl1,
    iterEnl v (n + 1) = expectedEnl (n + 1) flnav fl0 fl1 := by
  intro n
  induction n with
  | zero => exact ⟨[v], [1, 2], [3, 4], enl_base v⟩
  | succ m ih =>
      obtain ⟨a, b, c, hm⟩ := ih
      refine ⟨a ++ [v], b ++ [1, 2], c ++ [3, 4], ?_⟩
      rw [iterEnl, hm]
      exact enl_step_check v (m + 1) a b c

theorem iterTimed_exists : ∀ n : Nat, ∃ flnav fl0 fl1,
    iterTimed (n + 1) = expectedEnl (n + 1) flnav fl0 fl1 := by
  intro n
  induction n with
  | zero => exact ⟨[(0 : Scalar)], [1, 2], [3, 4], timed_base⟩
  | succ m ih =>
      obtain ⟨a, b, c, hm⟩ := ih
      refine ⟨a ++ [((m + 1 : Nat) : Scalar)], b ++ [1, 2], c ++ [3, 4], ?_⟩
      rw [iterTimed, hm]
      exact timed_step_check _ (m + 1) a b c

theorem expectedEnl_data_typed (m : Nat) (flnav fl0 fl1 : List Scalar)
    (p : NodePath) (dt : DataType) (ats : List (String × AttrVal)) (a : NDArr)
    (hmem : (p, H5Node.arr dt ats a) ∈ (expectedEnl m flnav fl0 fl1).nodes)
    (hdt : data_typed dt) : a.shape.headD 0 = m := by
  simp only [expectedEnl, mkArrNode, H5File.nodes, List.mem_cons, List.not_mem_nil,
    or_false, Prod.mk.injEq] at hmem
  rcases hmem with hg1 | hg2 | hg3 | hnav | hg4 | hg5 | he0 | he1 | hax
  · exact absurd hg1.2 (by simp)
  · exact absurd hg2.2 (by simp)
  · exact absurd hg3.2 (by simp)
  · obtain ⟨h1, h2, h3⟩ := H5Node.arr.inj hnav.2
    subst h1
    simp [data_typed] at hdt
  · exact absurd hg4.2 (by simp)
  · exact absurd hg5.2 (by simp)
  · obtain ⟨h1, h2, h3⟩ := H5Node.arr.inj he0.2
    rw [h3]
    rfl
  · obtain ⟨h1, h2, h3⟩ := H5Node.arr.inj he1.2
    rw [h3]
    rfl
  · obtain ⟨h1, h2, h3⟩ := H5Node.arr.inj hax.2
    subst h1
    simp [data_typed] at hdt

theorem enl_add_one_unfold (f : H5File) (gp : NodePath) (i : Nat)
    (ats : List (String × AttrVal)) (x : NDArr) :
    enl_add_one f gp i ats x =
      match getNode f (gp ++ [format_node_name .data_enlargeable i]) with
      | some _ => modifyNode f (gp ++ [format_node_name .data_enlargeable i]) (stackNode x)
      | none => addNode f (gp ++ [format_node_name .data_enlargeable i])
          (mkArrNode .data_enlargeable ats (stack ⟨0 :: x.shape, []⟩ x)) := rfl

theorem enl_add_arrays_preserve (gp : NodePath)
    (ps : List (List (String × AttrVal) × NDArr)) :
    ∀ (f : H5File) (i0 : Nat) (q : NodePath),
      (∀ k, k < ps.length → q ≠ gp ++ [format_node_name .data_enlargeable (i0 + k)]) →
      getNode (enl_add_arrays f gp i0 ps) q = getNode f q := by
  induction ps with
  | nil => intro f i0 q hq; rfl
  | cons pa rest ih =>
      intro f i0 q hq
      obtain ⟨ats, a⟩ := pa
      rw [enl_add_arrays]
      have hq0 : q ≠ gp ++ [format_node_name .data_enlargeable i0] := by
        have := hq 0 (by simp)
        simpa using this
      have hrest : ∀ k, k < rest.length →
          q ≠ gp ++ [format_node_name .data_enlargeable (i0 + 1 + k)] := by
        intro k hk
        have := hq (k + 1) (by simp only [List.length_cons]; omega)
        rw [show i0 + (k + 1) = i0 + 1 + k by omega] at this
        exact this
      rw [ih (enl_add_one f gp i0 ats a) (i0 + 1) q hrest, enl_add_one_unfold]
      cases hg : getNode f (gp ++ [format_node_name .data_enlargeable i0]) with
      | some nd =>
          show getNode (modifyNode f _ _) q = getNode f q
          rw [getNode, modifyNode]
          exact getNodeL_modL_ne f.nodes _ q _ (fun he => hq0 he.symm)
      | none =>
          show getNode (addNode f _ _) q = getNode f q
          rw [getNode, addNode, getNodeL_append]
          cases hfq : getNodeL f.nodes q with
          | some nd => rw [getNode, hfq]
          | none =>
              rw [getNode, hfq, getNodeL_cons, if_neg (fun he => hq0 he.symm), getNodeL_nil]

theorem enl_iter_node0 (f0 : H5File) (gp : NodePath) (d : DataWithAxes)
    (h : Fresh f0 gp) (hlab : d.labels.length = d.data.length) (hne : d.data ≠ [])
    (h100 : d.data.length ≤ 100) :
    ∀ n : Nat, ∃ ats fl, getNode (enl_iter gp d f0 (n + 1))
        (gp ++ [format_node_name .data_enlargeable 0])
      = some (.arr .data_enlargeable ats ⟨(n + 1) :: d.shape, fl⟩) := by
  obtain ⟨a0, arest, ha⟩ : ∃ x xs, d.data = x :: xs := by
    cases hd : d.data with
    | nil => exact absurd hd hne
    | cons x xs => exact ⟨x, xs, rfl⟩
  obtain ⟨l0, lrest, hl⟩ : ∃ y ys, d.labels = y :: ys := by
    cases hld : d.labels with
    | nil => rw [hld, ha] at hlab; simp at hlab
    | cons y ys => exact ⟨y, ys, rfl⟩
  have hps : dwa_pairs d = (data_attrs d.name l0, a0) ::
      (arest.zip lrest).map (fun pa => (data_attrs d.name pa.2, pa.1)) := by
    rw [dwa_pairs_eq d hlab, ha, hl]
    rfl
  have hshape : a0.shape = d.shape := by
    rw [DataWithAxes.shape, ha]
    rfl
  have htlen : ((arest.zip lrest).map (fun pa => (data_attrs d.name pa.2, pa.1))).length
      ≤ 99 := by
    have := dwa_pairs_length d hlab
    rw [hps] at this
    simp only [List.length_cons] at this
    omega
  have hnoti : ∀ k, k < ((arest.zip lrest).map
        (fun pa => (data_attrs d.name pa.2, pa.1))).length →
      gp ++ [format_node_name .data_enlargeable 0] ≠
        gp ++ [format_node_name .data_enlargeable (0 + 1 + k)] := by
    intro k hk he
    have hx : format_node_name .data_enlargeable 0 =
        format_node_name .data_enlargeable (0 + 1 + k) := by
      have := List.append_cancel_left he
      simpa using this
    have hk99 : k < 99 := by omega
    have := format_node_name_inj .data_enlargeable 0 (0 + 1 + k) (by omega) (by omega) hx
    omega
  have hstep : ∀ (f : H5File) (nd : H5Node),
      getNode f (gp ++ [format_node_name .data_enlargeable 0]) = some nd →
      getNode (DataEnlargeableSaver.add_data f gp d)
          (gp ++ [format_node_name .data_enlargeable 0]) = some (stackNode a0 nd) := by
    intro f nd hnd
    rw [DataEnlargeableSaver.add_data, hnd]
    simp only [Option.isNone_some, Bool.false_eq_true, if_false]
    rw [hps, enl_add_arrays,
      enl_add_arrays_preserve gp ((arest.zip lrest).map
          (fun pa => (data_attrs d.name pa.2, pa.1)))
        (enl_add_one f gp 0 (data_attrs d.name l0) a0) (0 + 1)
        (gp ++ [format_node_name .data_enlargeable 0]) hnoti,
      enl_add_one_unfold, hnd]
    show getNode (modifyNode f _ _) _ = _
    rw [getNode, modifyNode, getNodeL_modL_self]
    rw [show getNodeL f.nodes (gp ++ [format_node_name .data_enlargeable 0]) = some nd
      from hnd]
    rfl
  intro n
  induction n with
  | zero =>
      refine ⟨data_attrs d.name l0 ++ [("data_type", .s DataType.data_enlargeable.tname)],
        a0.flat, ?_⟩
      have hfr0 : getNode f0 (gp ++ [format_node_name .data_enlargeable 0]) = none :=
        fresh_getNodeL_none f0 gp _ (by simp) h
      rw [show enl_iter gp d f0 (0 + 1) = DataEnlargeableSaver.add_data f0 gp d from rfl,
        DataEnlargeableSaver.add_data, hfr0]
      simp only [Option.isNone_none, if_true]
      rw [getNode, add_axes_nodes, getNodeL_append, hps, enl_add_arrays]
      have hpres : getNodeL (enl_add_arrays (enl_add_one f0 gp 0 (data_attrs d.name l0) a0)
            gp (0 + 1) ((arest.zip lrest).map (fun pa => (data_attrs d.name pa.2, pa.1)))).nodes
            (gp ++ [format_node_name .data_enlargeable 0])
          = getNodeL (enl_add_one f0 gp 0 (data_attrs d.name l0) a0).nodes
            (gp ++ [format_node_name .data_enlargeable 0]) :=
        enl_add_arrays_preserve gp _ _ (0 + 1) _ hnoti
      rw [hpres, enl_add_one_unfold, hfr0]
      show (match getNodeL (addNode f0 _ _).nodes _ with
        | some nd => some nd
        | none => getNodeL _ _) = _
      rw [addNode, getNodeL_append,
        show getNodeL f0.nodes (gp ++ [format_node_name .data_enlargeable 0]) = none
          from fresh_getNodeL_none f0 gp _ (by simp) h,
        getNodeL_cons, if_pos rfl]
      rw [← hshape]
      rfl
  | succ m ih =>
      obtain ⟨ats, fl, hm⟩ := ih
      refine ⟨ats, fl ++ a0.flat, ?_⟩
      have := hstep (enl_iter gp d f0 (m + 1)) _ hm
      rw [show enl_iter gp d f0 (m + 1 + 1)
        = DataEnlargeableSaver.add_data (enl_iter gp d f0 (m + 1)) gp d from rfl, this]
      rfl

/-- Claim C5: after n timed appends under a detector group the special
`NavAxes` group exists under that group, `get_nav_group` on the enlargeable
data node returns exactly that group, and the navigation axis node inside it
has `shape` attribute `(n,)` and `index` attribute 0. -/
theorem C5_nav_axes_group (n : Nat) (hn : 0 < n) :
    getNode (iterTimed n) ["RawData", "MyDet", "NavAxes"] = some .group ∧
    get_nav_group (iterTimed n) ["RawData", "MyDet", "Data1D", "CH00", "EnlData00"]
      = some ["RawData", "MyDet", "NavAxes"] ∧
    ∃ nd, getNode (iterTimed n) ["RawData", "MyDet", "NavAxes", "Axis00"] = some nd ∧
      getAttr nd "shape" = some (.shp [n]) ∧ getAttr nd "index" = some (.n 0) := by
  match n, hn with
  | m + 1, _ =>
  obtain ⟨a, b, c, hEq⟩ := iterTimed_exists m
  rw [hEq]
  exact ⟨rfl, rfl, ⟨mkArrNode .axis nav_axis_attrs ⟨[m + 1], a⟩, rfl, rfl, rfl⟩⟩

/-- Claim C2: shape growth of enlargeable data: after n appends of the same
data by `DataEnlargeableSaver.add_data` the created node's `shape` attribute
is `(n,)` followed by the data shape; and after n appends by
`DataToExportEnlargeableSaver.add_data` (with an axis value) or
`DataToExportTimedSaver.add_data`, every data-typed node in the file has
first shape component n. -/
theorem C2_enlargeable_shape_growth :
    (∀ (f0 : H5File) (gp : NodePath) (d : DataWithAxes) (n : Nat), Fresh f0 gp →
      d.labels.length = d.data.length → d.data ≠ [] → d.data.length ≤ 100 → 0 < n →
      ∃ nd, getNode (enl_iter gp d f0 n) (gp ++ [format_node_name .data_enlargeable 0])
          = some nd ∧ getAttr nd "shape" = some (.shp (n :: d.shape))) ∧
    (∀ (v : Scalar) (n : Nat) (p : NodePath) (dt : DataType)
        (ats : List (String × AttrVal)) (a : NDArr),
      (p, H5Node.arr dt ats a) ∈ (iterEnl v n).nodes → data_typed dt →
        a.shape.headD 0 = n) ∧
    (∀ (n : Nat) (p : NodePath) (dt : DataType) (ats : List (String × AttrVal)) (a : NDArr),
      (p, H5Node.arr dt ats a) ∈ (iterTimed n).nodes → data_typed dt →
        a.shape.headD 0 = n) := by
  refine ⟨?_, ?_, ?_⟩
  · intro f0 gp d n h hlab hne h100 hn
    match n, hn with
    | m + 1, _ =>
      obtain ⟨ats, fl, hm⟩ := enl_iter_node0 f0 gp d h hlab hne h100 m
      exact ⟨_, hm, rfl⟩
  · intro v n p dt ats a hmem hdt
    cases n with
    | zero =>
        simp only [iterEnl, base_det_file, H5File.nodes, List.mem_cons,
          List.not_mem_nil, or_false, Prod.mk.injEq] at hmem
        rcases hmem with ⟨_, h2⟩ | ⟨_, h2⟩ <;> exact absurd h2 (by simp)
    | succ m =>
        obtain ⟨a', b', c', hEq⟩ := iterEnl_exists v m
        rw [hEq] at hmem
        exact expectedEnl_data_typed (m + 1) a' b' c' p dt ats a hmem hdt
  · intro n p dt ats a hmem hdt
    cases n with
    | zero =>
        simp only [iterTimed, base_det_file, H5File.nodes, List.mem_cons,
          List.not_mem_nil, or_false, Prod.mk.injEq] at hmem
        rcases hmem with ⟨_, h2⟩ | ⟨_, h2⟩ <;> exact absurd h2 (by simp)
    | succ m =>
        obtain ⟨a', b', c', hEq⟩ := iterTimed_exists m
        rw [hEq] at hmem
        exact expectedEnl_data_typed (m + 1) a' b' c' p dt ats a hmem hdt

/-- Claim C2, witness: two appends of a concrete one-array data set give the
node shape (2, 2); one `DataToExport`-level append gives every data-typed
node first shape component 1. -/
theorem C2_enlargeable_shape_growth_witness :
    (∃ nd, getNode (enl_iter ["RawData"] ⟨"mydata", [⟨[2], [1, 2]⟩], ["l1"], []⟩
        ⟨[(["RawData"], H5Node.group)]⟩ 2) (["RawData"] ++ [format_node_name .data_enlargeable 0])
        = some nd ∧ getAttr nd "shape" = some (.shp [2, 2])) ∧
    (⟨[1, 2], [1, 2]⟩ : NDArr).shape.headD 0 = 1 ∧
    (⟨[1, 2], [3, 4]⟩ : NDArr).shape.headD 0 = 1 :=
  ⟨C2_enlargeable_shape_growth.1 ⟨[(["RawData"], H5Node.group)]⟩ ["RawData"]
      ⟨"mydata", [⟨[2], [1, 2]⟩], ["l1"], []⟩ 2 fresh_base (by decide) (by decide)
      (by decide) (by decide),
    C2_enlargeable_shape_growth.2.1 5 1 ["RawData", "MyDet", "Data1D", "CH00", "EnlData00"]
      .data_enlargeable [("name", .s "mydata"), ("label", .s "l1"),
        ("data_type", .s "data_enlargeable")] ⟨[1, 2], [1, 2]⟩ (by decide) (by decide),
    C2_enlargeable_shape_growth.2.2 1 ["RawData", "MyDet", "Data1D", "CH00", "EnlData01"]
      .data_enlargeable [("name", .s "mydata"), ("label", .s "l2"),
        ("data_type", .s "data_enlargeable")] ⟨[1, 2], [3, 4]⟩ (by decide) (by decide)⟩

/-- Claim C5, witness: three timed appends of the sample data. -/
theorem C5_nav_axes_group_witness :
    getNode (iterTimed 3) ["RawData", "MyDet", "NavAxes"] = some .group ∧
    get_nav_group (iterTimed 3) ["RawData", "MyDet", "Data1D", "CH00", "EnlData00"]
      = some ["RawData", "MyDet", "NavAxes"] ∧
    ∃ nd, getNode (iterTimed 3) ["RawData", "MyDet", "NavAxes", "Axis00"] = some nd ∧
      getAttr nd "shape" = some (.shp [3]) ∧ getAttr nd "index" = some (.n 0) :=
  C5_nav_axes_group 3 (by decide)


/-! ### Claim C7 -/

/-- Claim C7: node-path derivation: under a fresh group the n-th axis node is
named `_format_node_name(n)` and carries the `axis` data type attribute;
the n-th plain data node likewise (`Data00`, `Data01`, ...), enlargeable
nodes are `EnlData00`, ..., and a `DataToExportSaver` groups channels as
`CH00` below the dimension group, every created node carrying its saver's
data type in its `data_type` attribute. -/
theorem C7_node_naming :
    (∀ (f0 : H5File) (gp : NodePath) (axes : List Axis) (i : Nat), Fresh f0 gp →
      axes.length ≤ 100 → i < axes.length →
      ∃ nd, getNode (add_axes f0 gp axes) (gp ++ [format_node_name .axis i]) = some nd ∧
        getAttr nd "data_type" = some (.s "axis")) ∧
    (∀ (f0 : H5File) (gp : NodePath) (d : DataWithAxes) (i : Nat), Fresh f0 gp →
      d.labels.length = d.data.length → d.data.length ≤ 100 → i < d.data.length →
      ∃ nd, getNode (DataSaverLoader.add_data f0 gp d) (gp ++ [format_node_name .data i])
          = some nd ∧ getAttr nd "data_type" = some (.s "data")) ∧
    format_node_name .data 0 = "Data00" ∧ format_node_name .data 1 = "Data01" ∧
    format_node_name .data_enlargeable 0 = "EnlData00" ∧
    format_node_name .axis 2 = "Axis02" ∧
    (∃ nd, getNode (DataToExportSaver.add_data base_det_file ["RawData", "MyDet"]
        ⟨"big2", [⟨"d2", [⟨[2, 2], [1, 2, 3, 4]⟩], ["u"], []⟩]⟩)
        ["RawData", "MyDet", "Data2D", "CH00", "Data00"] = some nd ∧
      getAttr nd "data_type" = some (.s "data")) := by
  refine ⟨?_, ?_, by decide, by decide, by decide, by decide, ?_⟩
  · intro f0 gp axes i h h100 hi
    have hmlen : i < (axes.map (fun a =>
        (axis_attrs a, (⟨[a.data.length], a.data⟩ : NDArr)))).length := by
      rw [List.length_map]
      omega
    have hB := getNodeL_mkArrEntries_at gp .axis (axes.map (fun a =>
        (axis_attrs a, (⟨[a.data.length], a.data⟩ : NDArr)))) 0 i hmlen
      (by rw [List.length_map]; omega)
    simp only [Nat.zero_add, List.get_eq_getElem, List.getElem_map] at hB
    refine ⟨mkArrNode .axis (axis_attrs (axes.get ⟨i, hi⟩))
      ⟨[(axes.get ⟨i, hi⟩).data.length], (axes.get ⟨i, hi⟩).data⟩, ?_, rfl⟩
    rw [getNode, add_axes_nodes, countType_eq_zero_of_fresh f0 gp .axis h, mkAxisEntries_eq]
    simp only [getNodeL_append,
      fresh_getNodeL_none f0 gp [format_node_name .axis i] (by simp) h, hB]
    rfl
  · intro f0 gp d i h hlab h100 hi
    have hplen : i < (dwa_pairs d).length := by
      rw [dwa_pairs_length d hlab]
      omega
    have hB := getNodeL_mkArrEntries_at gp .data (dwa_pairs d) 0 i hplen
      (by rw [dwa_pairs_length d hlab]; omega)
    simp only [Nat.zero_add] at hB
    have hz : i < (d.data.zip d.labels).length := by
      rw [List.length_zip]
      omega
    have hval : (dwa_pairs d).get ⟨i, hplen⟩ =
        (data_attrs d.name ((d.data.zip d.labels).get ⟨i, hz⟩).2,
          ((d.data.zip d.labels).get ⟨i, hz⟩).1) := by
      have hcg := get_congr_list (dwa_pairs d)
        ((d.data.zip d.labels).map (fun pa => (data_attrs d.name pa.2, pa.1)))
        (dwa_pairs_eq d hlab) i hplen (by rw [List.length_map]; exact hz)
      rw [hcg]
      simp only [List.get_eq_getElem, List.getElem_map]
    rw [hval] at hB
    refine ⟨mkArrNode .data (data_attrs d.name ((d.data.zip d.labels).get ⟨i, hz⟩).2)
      ((d.data.zip d.labels).get ⟨i, hz⟩).1, ?_, rfl⟩
    rw [getNode, add_data_nodes, countType_eq_zero_of_fresh f0 gp .data h,
      countType_eq_zero_of_fresh f0 gp .axis h]
    simp only [getNodeL_append,
      fresh_getNodeL_none f0 gp [format_node_name .data i] (by simp) h, hB]
  · exact ⟨mkArrNode .data (data_attrs "d2" "u") ⟨[2, 2], [1, 2, 3, 4]⟩,
      by with_unfolding_all rfl, rfl⟩

/-- Claim C7, witness: the second of two axes lands at `Axis01` with the
`axis` data type; the second of two arrays lands at `Data01` with the `data`
data type. -/
theorem C7_node_naming_witness :
    (∃ nd, getNode (add_axes ⟨[(["RawData"], H5Node.group)]⟩ ["RawData"]
        [⟨"a0", "u0", [1, 2], 0⟩, ⟨"a1", "u1", [3, 4], 1⟩])
        (["RawData"] ++ [format_node_name .axis 1]) = some nd ∧
      getAttr nd "data_type" = some (.s "axis")) ∧
    (∃ nd, getNode (DataSaverLoader.add_data ⟨[(["RawData"], H5Node.group)]⟩ ["RawData"]
        ⟨"mydata", [⟨[2], [1, 2]⟩, ⟨[2], [3, 4]⟩], ["l1", "l2"], []⟩)
        (["RawData"] ++ [format_node_name .data 1]) = some nd ∧
      getAttr nd "data_type" = some (.s "data")) :=
  ⟨C7_node_naming.1 ⟨[(["RawData"], H5Node.group)]⟩ ["RawData"]
      [⟨"a0", "u0", [1, 2], 0⟩, ⟨"a1", "u1", [3, 4], 1⟩] 1 fresh_base (by decide) (by decide),
    C7_node_naming.2.1 ⟨[(["RawData"], H5Node.group)]⟩ ["RawData"]
      ⟨"mydata", [⟨[2], [1, 2]⟩, ⟨[2], [3, 4]⟩], ["l1", "l2"], []⟩ 1 fresh_base
      (by decide) (by decide) (by decide)⟩


/-- Claim C8, counterexample to the claim as stated: with no existing plot
items and one data channel, the channel count differs from the plot-item
count and yet `update_data` succeeds, so "update_data cannot succeed when the
number of data channels differs from the number of existing plot items" fails
at this input. -/
theorem C8_counterexample :
    (1 : Nat) ≠ (DisplayerState.mk [] []).plot_items.length ∧
      update_data ⟨[], []⟩ [(3 : Scalar)] = .ok ⟨[0], [[(3 : Scalar)]]⟩ := by
  constructor
  · decide
  · rfl

/-- Claim C8 (amended): whenever `_plot_items` is non-empty at call time,
`update_display_items` raises `AttributeError` because the clearing loop
reads the undefined attribute `self.legend_items`; consequently `update_data`
cannot succeed when the number of data channels differs from the number of
existing plot items and at least one plot item exists. -/
theorem C8_update_display_raises (s : DisplayerState) (data : List Scalar)
    (h : s.plot_items ≠ []) :
    update_display_items s data = .error .attributeError ∧
      (data.length ≠ s.plot_items.length →
        update_data s data = .error .attributeError) := by
  have hne : s.plot_items.isEmpty = false := by
    cases hpl : s.plot_items with
    | nil => exact absurd hpl h
    | cons a l => rfl
  constructor
  · simp [update_display_items, hne]
  · intro hlen
    simp [update_data, hlen, update_display_items, hne]

/-- Claim C8 (amended), witness at a concrete state. -/
theorem C8_update_display_raises_witness :
    update_display_items ⟨[0], []⟩ [(3 : Scalar), 4] = .error .attributeError ∧
      (2 ≠ ([0] : List Nat).length →
        update_data ⟨[0], []⟩ [(3 : Scalar), 4] = .error .attributeError) := by
  have h := C8_update_display_raises ⟨[0], []⟩ [(3 : Scalar), 4] (by decide)
  exact ⟨h.1, fun _ => h.2 (by decide)⟩

/-- Claim C9: `ini_stage` always returns a status with `initialized = true`
and `info = "LECODirector"`; a `TimeoutError` from `set_remote_name` is
caught and the returned status is the same as in the success case. -/
theorem C9_ini_stage_always_initialized (o : RemoteNameOutcome) :
    (ini_stage o).initialized = true ∧ (ini_stage o).info = "LECODirector" ∧
      ini_stage o = ini_stage .ok := by
  cases o <;> exact ⟨rfl, rfl, rfl⟩

/-- Claim C10: `move_abs` forwards `set_position_with_scaling (check_bound p)`
to the controller and stores it in `target_value`; `move_rel` sets
`target_value` to the clamped absolute position `check_bound (current + p)`
and forwards the scaled relative move computed from the clamped position. -/
theorem C10_bounds_scaling_applied (check_bound scale_abs scale_rel : Scalar → Scalar)
    (s : MoveState) (p : Scalar) :
    (move_abs check_bound scale_abs s p).sent
        = s.sent ++ [.abs (scale_abs (check_bound p))] ∧
      (move_abs check_bound scale_abs s p).target_value
        = scale_abs (check_bound p) ∧
      (move_rel check_bound scale_rel s p).target_value
        = check_bound (s.current_value + p) ∧
      (move_rel check_bound scale_rel s p).sent
        = s.sent ++ [.rel (scale_rel (check_bound (s.current_value + p)
            - s.current_value))] := by
  refine ⟨rfl, rfl, ?_, rfl⟩
  simp [move_rel]
